import Mathlib

/-!
Shallow embedding of the vulnerability-source updaters of this repository:
the Amazon Linux ALAS updater (ext/vulnsrc/amzn) and the Debian Security
Tracker updater (ext/vulnsrc/debian), together with proofs of the
specification claims about them.

External collaborators (HTTP fetches, gzip, XML and JSON decoding, the
SHA-256 digest, the version-format oracle and the Debian release-name
mapping) are passed in as explicit parameters, mirroring how the Go code
consumes them through interfaces and package-level values that are not part
of the sources under verification.
-/

set_option autoImplicit false

/-! ## Canonical data model

Modelled from the spec: the `database` package of the repository is not part
of the sources here; the spec fixes the produced batch shape
`{ Vulnerabilities, FlagName, FlagValue, Notes }`, the severity scale
`{Unknown, Negligible, Low, Medium, High, Critical}` with its canonical
order, and the feature/namespace attributes. -/

inductive Severity
  | Unknown
  | Negligible
  | Low
  | Medium
  | High
  | Critical
deriving DecidableEq

/-- Position of a severity on the canonical ordered scale. -/
def Severity.toNat : Severity → Nat
  | .Unknown => 0
  | .Negligible => 1
  | .Low => 2
  | .Medium => 3
  | .High => 4
  | .Critical => 5

/-- Modelled from the spec: `database.Severity.Compare`, positive when the
first severity is strictly higher on the canonical scale. -/
def Severity.compareSev (a b : Severity) : Int :=
  (a.toNat : Int) - (b.toNat : Int)

inductive FeatureType
  | BinaryPackage
  | SourcePackage
deriving DecidableEq

structure Namespace where
  Name : String
  VersionFormat : String
deriving DecidableEq

structure AffectedFeature where
  Namespace : Namespace
  FeatureName : String
  FeatureType : FeatureType
  AffectedVersion : String
  FixedInVersion : String
deriving DecidableEq

structure Vulnerability where
  Name : String
  Link : String
  Severity : Severity
  Description : String
deriving DecidableEq

structure VulnerabilityWithAffected where
  Vulnerability : Vulnerability
  Affected : List AffectedFeature
deriving DecidableEq

/-- Field promoted from the embedded struct in Go. -/
def VulnerabilityWithAffected.Name (v : VulnerabilityWithAffected) : String :=
  v.Vulnerability.Name

/-- Field promoted from the embedded struct in Go. -/
def VulnerabilityWithAffected.Severity (v : VulnerabilityWithAffected) : Severity :=
  v.Vulnerability.Severity

/-- Field promoted from the embedded struct in Go. -/
def VulnerabilityWithAffected.Description (v : VulnerabilityWithAffected) : String :=
  v.Vulnerability.Description

structure UpdateResponse where
  FlagName : String
  FlagValue : String
  Notes : List String
  Vulnerabilities : List VulnerabilityWithAffected
deriving DecidableEq

/-- The Go zero value `vulnsrc.UpdateResponse{}`. -/
def emptyUpdateResponse : UpdateResponse :=
  { FlagName := "", FlagValue := "", Notes := [], Vulnerabilities := [] }

/-- Modelled from the spec: `versionfmt.MaxVersion`, the distinguished version
string reserved across all formats to mean unbounded / currently open. Its
concrete spelling is opaque to the updaters; only its distinguishedness
matters. -/
def MaxVersion : String := "@@MAX-VERSION@@"

/-- The error kinds surfaced by an Update call: the two sentinel errors of
`pkg/commonerr` plus a stand-in for an error returned by the datastore
lookup, which both updaters propagate unmodified. -/
inductive ClairError
  | CouldNotDownload
  | CouldNotParse
  | DatastoreError
deriving DecidableEq

/-! ## Structural string and association-list helpers

The Go code works on strings and maps. These helpers operate on the
character lists underlying strings and on association lists standing for Go
maps, so that every definition reduces in the kernel. -/

/-- `strings.HasPrefix` / `regexp` anchor check, on the underlying lists. -/
def strStartsWith (pre s : String) : Bool :=
  pre.toList.isPrefixOf s.toList

/-- Lookup in an association list standing for a Go map. -/
def lookupA {α : Type} (k : String) : List (String × α) → Option α
  | [] => none
  | (k', v) :: rest => if k' = k then some v else lookupA k rest

/-- Go map assignment `m[k] = v`: replace the binding when present, append a
new binding otherwise. -/
def setA {α : Type} (k : String) (v : α) : List (String × α) → List (String × α)
  | [] => [(k, v)]
  | (k', v') :: rest => if k' = k then (k, v) :: rest else (k', v') :: setA k v rest

/-- Go set insertion `m[k] = struct{}{}` on a `map[string]struct{}`. -/
def insertS (k : String) (s : List String) : List String :=
  if k ∈ s then s else s ++ [k]

/-! ## Amazon updater: constants and raw data -/

def amazonLinux1UpdaterFlag : String := "amazonLinux1Updater"
def amazonLinux1Name : String := "Amazon Linux 2018.03"
def amazonLinux1Namespace : String := "amzn:2018.03"
def amazonLinux1LinkFormat : String := "https://alas.aws.amazon.com/%s.html"
def amazonLinux2UpdaterFlag : String := "amazonLinux2Updater"
def amazonLinux2Name : String := "Amazon Linux 2"
def amazonLinux2Namespace : String := "amzn:2"
def amazonLinux2LinkFormat : String := "https://alas.aws.amazon.com/AL2/%s.html"

def amazonLinux1MirrorListURI : String :=
  "http://repo.us-west-2.amazonaws.com/2018.03/updates/x86_64/mirror.list"
def amazonLinux2MirrorListURI : String :=
  "https://cdn.amazonlinux.com/2/core/latest/x86_64/mirror.list"

/-- Modelled from the spec: `rpm.ParserName`, the name of the RPM version
format of the external version-format oracle. -/
def rpmParserName : String := "rpm"

structure Updater where
  UpdaterFlag : String
  MirrorListURI : String
  Name : String
  Namespace : String
  LinkFormat : String
deriving DecidableEq

/-- The updater registered under source name amzn1. -/
def amazonLinux1Updater : Updater :=
  { UpdaterFlag := amazonLinux1UpdaterFlag, MirrorListURI := amazonLinux1MirrorListURI,
    Name := amazonLinux1Name, Namespace := amazonLinux1Namespace,
    LinkFormat := amazonLinux1LinkFormat }

/-- The updater registered under source name amzn2. -/
def amazonLinux2Updater : Updater :=
  { UpdaterFlag := amazonLinux2UpdaterFlag, MirrorListURI := amazonLinux2MirrorListURI,
    Name := amazonLinux2Name, Namespace := amazonLinux2Namespace,
    LinkFormat := amazonLinux2LinkFormat }

/-- Modelled from the spec: one advisory record of the decoded
updateinfo.xml document, carrying identifier, update timestamp, severity
string, free-text description and the affected packages. The struct
definitions live outside the sources under verification; the fields are
exactly those the updater reads. -/
structure ALASUpdated where
  Date : String
deriving DecidableEq

structure ALASPackage where
  Name : String
  Epoch : String
  Version : String
  Release : String
deriving DecidableEq

structure ALAS where
  Id : String
  Updated : ALASUpdated
  Severity : String
  Description : String
  Packages : List ALASPackage
deriving DecidableEq

structure UpdateInfo where
  ALASList : List ALAS
deriving DecidableEq

/-- Modelled from the spec: the repomd.xml repository-metadata structure,
a list of repo data entries with a declared type and a relative location. -/
structure RepoLocation where
  Href : String
deriving DecidableEq

structure Repo where
  RepoDataType : String
  Location : RepoLocation
deriving DecidableEq

structure RepoMd where
  RepoList : List Repo
deriving DecidableEq

/-! ## Amazon updater: pure canonicalization -/

/-- Lexicographic three-way comparison of character lists by code point,
which on UTF-8 encoded text agrees with the byte-wise Go string order. -/
def cmpCharList : List Char → List Char → Ordering
  | [], [] => .eq
  | [], _ :: _ => .lt
  | _ :: _, [] => .gt
  | a :: as, b :: bs =>
    if a.toNat < b.toNat then .lt
    else if b.toNat < a.toNat then .gt
    else cmpCharList as bs

/-- Lexicographic comparison of two fixed-width `YYYY-MM-DD hh:mm` timestamp
strings, as in the source: negative, zero or positive. -/
def compareTimestamp (date0 date1 : String) : Int :=
  match cmpCharList date0.toList date1.toList with
  | .lt => -1
  | .gt => 1
  | .eq => 0

/-- `fmt.Sprintf` on a format string holding a single `%s` verb, which is
the shape of both advisory-link templates. -/
def spliceVerb : List Char → List Char → List Char
  | [], _ => []
  | '%' :: 's' :: rest, arg => arg ++ rest
  | c :: rest, arg => c :: spliceVerb rest arg

def sprintfS (format arg : String) : String :=
  ⟨spliceVerb format.toList arg.toList⟩

def alasToName (alas : ALAS) : String :=
  alas.Id

/-- The submatch of the Go regular expression `^ALAS2-(.+)$`: `some suffix`
when the identifier is `ALAS2-` followed by a nonempty newline-free suffix
(`.` does not match a newline), `none` otherwise. -/
def alas2Suffix (s : String) : Option String :=
  if strStartsWith "ALAS2-" s && decide (s.toList.drop 6 ≠ []) && !(s.toList.drop 6).contains '\n'
  then some ⟨s.toList.drop 6⟩
  else none

/-- Advisory link construction. On an Amazon Linux 2 identifier that does
not match `^ALAS2-(.+)$` the Go code indexes an empty submatch slice and
panics; that unreachable-by-data case is modelled as `""`. -/
def alasToLink (u : Updater) (alas : ALAS) : String :=
  if u.Name = amazonLinux1Name then sprintfS u.LinkFormat alas.Id
  else if u.Name = amazonLinux2Name then
    match alas2Suffix alas.Id with
    | some suffix => sprintfS u.LinkFormat ("ALAS-" ++ suffix)
    | none => ""
  else ""

/-- Severity mapping of the ALAS severity vocabulary. -/
def alasToSeverity (alas : ALAS) : Severity :=
  if alas.Severity = "low" then .Low
  else if alas.Severity = "medium" then .Medium
  else if alas.Severity = "important" then .High
  else if alas.Severity = "critical" then .Critical
  else .Unknown

/-- Character class of the Go regular expression `\s`:
tab, newline, form feed, carriage return and space. -/
def isRegexSpace (c : Char) : Bool :=
  c = '\t' || c = '\n' || c = '\x0c' || c = '\r' || c = ' '

/-- `unicode.IsSpace`, the class used by `strings.TrimSpace`. -/
def isUnicodeSpace (c : Char) : Bool :=
  c = '\t' || c = '\n' || c = '\x0b' || c = '\x0c' || c = '\r' || c = ' '
  || c = '\x85' || c = '\xa0' || c = '\u1680'
  || ('\u2000' ≤ c && c ≤ '\u200a')
  || c = '\u2028' || c = '\u2029' || c = '\u202f' || c = '\u205f' || c = '\u3000'

/-- `strings.TrimSpace`. -/
def trimSpace (s : String) : String :=
  ⟨((s.toList.dropWhile isUnicodeSpace).reverse.dropWhile isUnicodeSpace).reverse⟩

/-- Replace every maximal run of `\s` characters by a single space; the
boolean records whether the previous character was part of a run. -/
def collapseSpaceAux : Bool → List Char → List Char
  | _, [] => []
  | inRun, c :: cs =>
    if isRegexSpace c then
      if inRun then collapseSpaceAux true cs
      else ' ' :: collapseSpaceAux true cs
    else c :: collapseSpaceAux false cs

/-- `regexp.MustCompile of \s+ .ReplaceAllString(s, " ")`. -/
def collapseSpace (s : String) : String :=
  ⟨collapseSpaceAux false s.toList⟩

/-- Whitespace normalization of the advisory description: trim, then
collapse internal whitespace runs to single spaces. -/
def alasToDescription (alas : ALAS) : String :=
  collapseSpace (trimSpace alas.Description)

/-- The canonical version string of an affected package record. -/
def alasPackageVersion (p : ALASPackage) : String :=
  if p.Epoch = "0" then p.Version ++ "-" ++ p.Release
  else p.Epoch ++ ":" ++ p.Version ++ "-" ++ p.Release

/-- The affected feature built for one package record. -/
def alasPackageFeature (u : Updater) (p : ALASPackage) : AffectedFeature :=
  { Namespace := { Name := u.Namespace, VersionFormat := rpmParserName }
    FeatureName := p.Name
    FeatureType := .BinaryPackage
    AffectedVersion := alasPackageVersion p
    FixedInVersion := if alasPackageVersion p ≠ MaxVersion then alasPackageVersion p else "" }

/-- Package records whose version string fails the RPM version oracle are
dropped; the oracle is the external `versionfmt.Valid(rpm.ParserName, v)`. -/
def alasToFeatureVersions (u : Updater) (rpmValid : String → Bool) (alas : ALAS) :
    List AffectedFeature :=
  (alas.Packages.filter (fun p => rpmValid (alasPackageVersion p))).map (alasPackageFeature u)

/-- The vulnerability built from one advisory. -/
def alasToVuln (u : Updater) (rpmValid : String → Bool) (alas : ALAS) :
    VulnerabilityWithAffected :=
  { Vulnerability :=
      { Name := alasToName alas, Link := alasToLink u alas,
        Severity := alasToSeverity alas, Description := alasToDescription alas }
    Affected := alasToFeatureVersions u rpmValid alas }

/-- Advisories yielding no valid affected feature are dropped. -/
def alasListToVulnerabilities (u : Updater) (rpmValid : String → Bool)
    (alasList : List ALAS) : List VulnerabilityWithAffected :=
  (alasList.filter (fun alas => !(alasToFeatureVersions u rpmValid alas).isEmpty)).map
    (alasToVuln u rpmValid)

/-- One step of the watermark-filter loop of `updater.Update`: accept the
advisory when its timestamp strictly exceeds the stored flag value, and
track the maximum accepted timestamp. -/
def acceptALAS (flagValue : String) (acc : List ALAS × String) (alas : ALAS) :
    List ALAS × String :=
  if compareTimestamp alas.Updated.Date flagValue > 0 then
    (acc.1 ++ [alas],
     if compareTimestamp alas.Updated.Date acc.2 > 0 then alas.Updated.Date else acc.2)
  else acc

/-- The pure core of `updater.Update`, after the stored flag value has been
read and the update-info document fetched: filter by watermark, canonicalize,
and set the flag fields only when some advisory passed the filter. -/
def updateCore (u : Updater) (rpmValid : String → Bool) (flagValue : String)
    (updateInfo : UpdateInfo) : UpdateResponse :=
  let p := updateInfo.ALASList.foldl (acceptALAS flagValue) ([], "")
  let vulnerabilities := alasListToVulnerabilities u rpmValid p.1
  if p.2 ≠ "" then
    { FlagName := u.UpdaterFlag, FlagValue := p.2, Notes := [],
      Vulnerabilities := vulnerabilities }
  else
    { FlagName := "", FlagValue := "", Notes := [], Vulnerabilities := vulnerabilities }

/-! ## Amazon updater: fetch chain

The network and the decoders are oracles: `Net` maps a URI to `none`
(transport-level failure) or a response with a 2xx predicate and a body;
gzip decompression and the XML decoders map a body to `none` on failure. -/

structure HttpResponse where
  status2xx : Bool
  body : String
deriving DecidableEq

abbrev Net : Type := String → Option HttpResponse

/-- The first line of a response body as produced by `bufio.Scanner` with
line splitting: text up to the first newline, a trailing carriage return
stripped; the empty string when the body has no line at all. -/
def firstLine (s : String) : String :=
  let line := s.toList.takeWhile (fun c => c != '\n')
  if line.getLast? = some '\r' then ⟨line.dropLast⟩ else ⟨line⟩

/-- The repo entry scan of `getUpdateInfoURI`: the location of the first
entry of type updateinfo resolved against the mirror, or `""`. -/
def findUpdateInfoHref (mirrorURI : String) (repoList : List Repo) : String :=
  match repoList.find? (fun repo => repo.RepoDataType == "updateinfo") with
  | some repo => mirrorURI ++ "/" ++ repo.Location.Href
  | none => ""

/-- `updater.getUpdateInfoURI`: resolve the mirror list, fetch and decode
repomd.xml, and locate the updateinfo entry. Note that the repomd.xml
decode failure and the missing-entry case yield ErrCouldNotDownload in the
source. -/
def getUpdateInfoURI (net : Net) (decodeRepoMd : String → Option RepoMd)
    (u : Updater) : Except ClairError String :=
  match net u.MirrorListURI with
  | none => .error .CouldNotDownload
  | some mirrorListResponse =>
    if !mirrorListResponse.status2xx then .error .CouldNotDownload
    else
      let mirrorURI := firstLine mirrorListResponse.body
      match net (mirrorURI ++ "/repodata/repomd.xml") with
      | none => .error .CouldNotDownload
      | some repoMdResponse =>
        if !repoMdResponse.status2xx then .error .CouldNotDownload
        else
          match decodeRepoMd repoMdResponse.body with
          | none => .error .CouldNotDownload
          | some repoMd =>
            let updateInfoURI := findUpdateInfoHref mirrorURI repoMd.RepoList
            if updateInfoURI = "" then .error .CouldNotDownload
            else .ok updateInfoURI

/-- `updater.getUpdateInfo`: fetch the resolved URI, gzip-decompress and
decode the update-info XML. -/
def getUpdateInfo (net : Net) (decodeRepoMd : String → Option RepoMd)
    (gunzip : String → Option String) (decodeUpdateInfo : String → Option UpdateInfo)
    (u : Updater) : Except ClairError UpdateInfo :=
  match getUpdateInfoURI net decodeRepoMd u with
  | .error e => .error e
  | .ok updateInfoURI =>
    match net updateInfoURI with
    | none => .error .CouldNotDownload
    | some updateInfoResponse =>
      if !updateInfoResponse.status2xx then .error .CouldNotDownload
      else
        match gunzip updateInfoResponse.body with
        | none => .error .CouldNotParse
        | some updateInfoXml =>
          match decodeUpdateInfo updateInfoXml with
          | none => .error .CouldNotParse
          | some updateInfo => .ok updateInfo

/-- `updater.Update` for the Amazon updaters, as a function of the
datastore lookup result `kv` and the fetch oracles; the Go pair
`(response, err)` is returned as a pair with an optional error. -/
def amznUpdate (net : Net) (decodeRepoMd : String → Option RepoMd)
    (gunzip : String → Option String) (decodeUpdateInfo : String → Option UpdateInfo)
    (rpmValid : String → Bool) (kv : Except ClairError (Option String))
    (u : Updater) : UpdateResponse × Option ClairError :=
  match kv with
  | .error e => (emptyUpdateResponse, some e)
  | .ok found =>
    let flagValue := found.getD ""
    match getUpdateInfo net decodeRepoMd gunzip decodeUpdateInfo u with
    | .error e => (emptyUpdateResponse, some e)
    | .ok updateInfo => (updateCore u rpmValid flagValue updateInfo, none)

/-! ## Debian updater -/

/-- Modelled from the spec: `dpkg.ParserName`, the Debian version format of
the external version-format oracle. -/
def dpkgParserName : String := "dpkg"

/-- The source constant `updaterFlag` of the Debian updater. -/
def debianUpdaterFlag : String := "debianUpdater"

/-- The source variable `cveURLPrefix` at its default value. -/
def cveLinkBase : String := "https://security-tracker.debian.org/tracker"

/-- The source variable `url` at its default value. -/
def debianJSONURL : String := "https://security-tracker.debian.org/tracker/data/json"

structure JsonRel where
  FixedVersion : String
  Status : String
  Urgency : String
deriving DecidableEq

structure JsonVuln where
  Description : String
  Releases : List (String × JsonRel)
deriving DecidableEq

/-- The decoded Debian tracker document:
package name to advisory name to advisory record. -/
abbrev JsonData : Type := List (String × List (String × JsonVuln))

/-- `SeverityFromUrgency`: the Debian urgency vocabulary mapped onto the
canonical scale; unknown tokens degrade to Unknown. -/
def SeverityFromUrgency (urgency : String) : Severity :=
  if urgency = "not yet assigned" then .Unknown
  else if urgency ∈ ["end-of-life", "unimportant"] then .Negligible
  else if urgency ∈ ["low", "low*", "low**"] then .Low
  else if urgency ∈ ["medium", "medium*", "medium**"] then .Medium
  else if urgency ∈ ["high", "high*", "high**"] then .High
  else .Unknown

/-- One (package, advisory, release) triple of the document, together with
the description of its advisory node. -/
structure DTriple where
  pkgName : String
  vulnName : String
  description : String
  releaseName : String
  rel : JsonRel
deriving DecidableEq

/-- The triples of the document in iteration order. -/
def triplesOf (data : JsonData) : List DTriple :=
  data.flatMap (fun pkg =>
    pkg.2.flatMap (fun vuln =>
      vuln.2.Releases.map (fun r =>
        { pkgName := pkg.1, vulnName := vuln.1, description := vuln.2.Description,
          releaseName := r.1, rel := r.2 })))

/-- The in-progress state of `parseDebianJSON`: the advisory-name-keyed map
of vulnerabilities under construction and the set of unknown release
names. -/
structure DState where
  vulns : List (String × VulnerabilityWithAffected)
  unknownReleases : List String
deriving DecidableEq

/-- The vulnerability freshly created for an advisory name. -/
def freshVuln (vulnName description : String) : VulnerabilityWithAffected :=
  { Vulnerability :=
      { Name := vulnName, Link := cveLinkBase ++ "/" ++ vulnName,
        Severity := .Unknown, Description := description }
    Affected := [] }

/-- The severity update of the merge step: the incoming severity replaces
the current one exactly when it compares strictly higher. -/
def mergeSeverity (current incoming : Severity) : Severity :=
  if 0 < incoming.compareSev current then incoming else current

def withSeverity (v : VulnerabilityWithAffected) (s : Severity) :
    VulnerabilityWithAffected :=
  { v with Vulnerability := { v.Vulnerability with Severity := s } }

/-- The version determined for a release record; `""` means the triple
yields no affected feature. Open means currently vulnerable with no fix;
resolved versions must pass the Debian version oracle, and the literal
fixed version "0" means not actually affected. -/
def releaseVersion (dpkgValid : String → Bool) (rel : JsonRel) : String :=
  if rel.Status = "open" then MaxVersion
  else if rel.Status = "resolved" then
    if !dpkgValid rel.FixedVersion then ""
    else if rel.FixedVersion ≠ "0" then rel.FixedVersion
    else ""
  else ""

/-- The affected feature built for a Debian triple. -/
def debianFeature (pkgName releaseNumber version : String) : AffectedFeature :=
  { FeatureType := .SourcePackage
    FeatureName := pkgName
    AffectedVersion := version
    FixedInVersion := if version ≠ MaxVersion then version else ""
    Namespace := { Name := "debian:" ++ releaseNumber, VersionFormat := dpkgParserName } }

/-- The body of the triple loop of `parseDebianJSON`. Unknown release names
are recorded and skipped; non-CVE advisories and undetermined releases are
skipped. The vulnerability is fetched from the map or freshly created, its
severity merged, and a feature appended when the release determines a
version. Because the Go map stores a pointer, the severity merge is visible
in the map even when the triple yields no feature, but only when the
vulnerability was already stored; a freshly created one is dropped in that
case. -/
def processTriple (dpkgValid : String → Bool) (relMap : List (String × String))
    (st : DState) (t : DTriple) : DState :=
  match lookupA t.releaseName relMap with
  | none => { st with unknownReleases := insertS t.releaseName st.unknownReleases }
  | some releaseNumber =>
    if !strStartsWith "CVE-" t.vulnName || t.rel.Status == "undetermined" then st
    else
      let existing := lookupA t.vulnName st.vulns
      let v0 := existing.getD (freshVuln t.vulnName t.description)
      let v1 := withSeverity v0
        (mergeSeverity v0.Vulnerability.Severity (SeverityFromUrgency t.rel.Urgency))
      let version := releaseVersion dpkgValid t.rel
      if version = "" then
        match existing with
        | some _ => { st with vulns := setA t.vulnName v1 st.vulns }
        | none => st
      else
        let v2 := { v1 with
          Affected := v1.Affected ++ [debianFeature t.pkgName releaseNumber version] }
        { st with vulns := setA t.vulnName v2 st.vulns }

/-- `parseDebianJSON`: process every triple and flatten the map into the
emitted batch, also returning the unknown release names. The external
`database.DebianReleasesMapping` is the parameter `relMap`. -/
def parseDebianJSON (dpkgValid : String → Bool) (relMap : List (String × String))
    (data : JsonData) : List VulnerabilityWithAffected × List String :=
  let st := (triplesOf data).foldl (processTriple dpkgValid relMap) ⟨[], []⟩
  (st.vulns.map Prod.snd, st.unknownReleases)

/-- The operator note recorded for an unknown release name. -/
def unknownReleaseNote (k : String) : String :=
  "Debian " ++ k ++ " is not mapped to any version number (eg. Jessie->8). Please update me."

/-- `buildResponse`: decode the document while hashing it, skip
canonicalization when the digest equals the stored watermark, and on every
non-error path set the flag fields to the freshly computed hash (the
deferred function of the source). The JSON decoder and the streaming SHA-256
digest over the consumed bytes are the oracles `decodeJson` and
`sha256hex`. -/
def buildResponse (decodeJson : String → Option JsonData) (sha256hex : String → String)
    (dpkgValid : String → Bool) (relMap : List (String × String))
    (body : String) (latestKnownHash : String) : UpdateResponse × Option ClairError :=
  match decodeJson body with
  | none => (emptyUpdateResponse, some .CouldNotParse)
  | some data =>
    let hash := sha256hex body
    if latestKnownHash = hash then
      ({ emptyUpdateResponse with FlagName := debianUpdaterFlag, FlagValue := hash }, none)
    else
      let pr := parseDebianJSON dpkgValid relMap data
      ({ FlagName := debianUpdaterFlag, FlagValue := hash,
         Notes := pr.2.map unknownReleaseNote, Vulnerabilities := pr.1 }, none)

/-- `updater.Update` for the Debian updater. -/
def debianUpdate (net : Net) (decodeJson : String → Option JsonData)
    (sha256hex : String → String) (dpkgValid : String → Bool)
    (relMap : List (String × String)) (kv : Except ClairError (Option String)) :
    UpdateResponse × Option ClairError :=
  match kv with
  | .error e => (emptyUpdateResponse, some e)
  | .ok found =>
    let latestHash := found.getD ""
    match net debianJSONURL with
    | none => (emptyUpdateResponse, some .CouldNotDownload)
    | some r =>
      if !r.status2xx then (emptyUpdateResponse, some .CouldNotDownload)
      else buildResponse decodeJson sha256hex dpkgValid relMap r.body latestHash

/-! ## Concrete sample data used by witnesses and counterexamples -/

/-- A version oracle accepting every string. -/
def acceptAllVersions : String → Bool := fun _ => true

/-- A version oracle rejecting every string. -/
def rejectAllVersions : String → Bool := fun _ => false

/-- A sample advisory with one package at epoch 0. -/
def sampleALAS : ALAS :=
  { Id := "ALAS-2020-1", Updated := { Date := "2020-01-01 00:00" }, Severity := "important",
    Description := "  foo   bar ",
    Packages := [{ Name := "foo", Epoch := "0", Version := "1.2", Release := "3" }] }

def sampleUpdateInfo : UpdateInfo := { ALASList := [sampleALAS] }

/-- A release record with status open and urgency high. -/
def highRel : JsonRel := { FixedVersion := "", Status := "open", Urgency := "high" }

/-- A one-entry release-name mapping. -/
def sampleRelMap : List (String × String) := [("buster", "10")]

/-- A document carrying the same (advisory, release, urgency high) triple
twice under one advisory name. -/
def dataHighTwice : JsonData :=
  [("pkg", [("CVE-2020-1",
    { Description := "d", Releases := [("buster", highRel), ("buster", highRel)] })])]

/-! ## Order lemmas for the timestamp comparison -/

theorem cmpCharList_refl (l : List Char) : cmpCharList l l = .eq := by
  induction l with
  | nil => rfl
  | cons c cs ih => simp [cmpCharList, ih]

theorem cmpCharList_nil_left (l : List Char) : cmpCharList [] l ≠ .gt := by
  cases l <;> simp [cmpCharList]

theorem cmpCharList_cons_nil (c : Char) (l : List Char) :
    cmpCharList (c :: l) [] = .gt := rfl

theorem cmpCharList_gt_iff (a b : List Char) :
    cmpCharList a b = .gt ↔ cmpCharList b a = .lt := by
  induction a generalizing b with
  | nil => cases b <;> simp [cmpCharList]
  | cons x xs ih =>
    cases b with
    | nil => simp [cmpCharList]
    | cons y ys =>
      rcases Nat.lt_trichotomy x.toNat y.toNat with h | h | h
      · simp [cmpCharList, h, Nat.lt_asymm h]
      · simp [cmpCharList, h, Nat.lt_irrefl, ih ys]
      · simp [cmpCharList, h, Nat.lt_asymm h]

theorem cmpCharList_le_trans {a b c : List Char} (hab : cmpCharList a b ≠ .gt)
    (hbc : cmpCharList b c ≠ .gt) : cmpCharList a c ≠ .gt := by
  induction a generalizing b c with
  | nil => exact cmpCharList_nil_left c
  | cons x xs ih =>
    cases b with
    | nil => exact absurd (cmpCharList_cons_nil x xs) hab
    | cons y ys =>
      cases c with
      | nil => exact absurd (cmpCharList_cons_nil y ys) hbc
      | cons z zs =>
        simp only [cmpCharList] at hab hbc ⊢
        by_cases hxy : x.toNat < y.toNat
        · by_cases hyz : y.toNat < z.toNat
          · simp [Nat.lt_trans hxy hyz]
          · by_cases hzy : z.toNat < y.toNat
            · simp [hyz, hzy] at hbc
            · have hxz : x.toNat < z.toNat := by omega
              simp [hxz]
        · by_cases hyx : y.toNat < x.toNat
          · simp [hxy, hyx] at hab
          · simp only [if_neg hxy, if_neg hyx] at hab
            by_cases hyz : y.toNat < z.toNat
            · have hxz : x.toNat < z.toNat := by omega
              simp [hxz]
            · by_cases hzy : z.toNat < y.toNat
              · simp [hyz, hzy] at hbc
              · simp only [if_neg hyz, if_neg hzy] at hbc
                have hxz : ¬ x.toNat < z.toNat := by omega
                have hzx : ¬ z.toNat < x.toNat := by omega
                simp only [if_neg hxz, if_neg hzx]
                exact ih hab hbc

theorem compareTimestamp_pos_iff {x y : String} :
    0 < compareTimestamp x y ↔ cmpCharList x.toList y.toList = .gt := by
  unfold compareTimestamp
  rcases h : cmpCharList x.toList y.toList <;> simp [h]

theorem compareTimestamp_nonpos_iff {x y : String} :
    compareTimestamp x y ≤ 0 ↔ cmpCharList x.toList y.toList ≠ .gt := by
  unfold compareTimestamp
  rcases h : cmpCharList x.toList y.toList <;> simp [h]

/-! ## The watermark-filter fold of the Amazon Update -/

theorem foldl_acceptALAS_fst (flagValue : String) (l : List ALAS) (acc : List ALAS × String) :
    (l.foldl (acceptALAS flagValue) acc).1
      = acc.1 ++ l.filter (fun a => decide (compareTimestamp a.Updated.Date flagValue > 0)) := by
  induction l generalizing acc with
  | nil => simp
  | cons a l ih =>
    rw [List.foldl_cons, List.filter_cons]
    by_cases h : compareTimestamp a.Updated.Date flagValue > 0
    · rw [ih]
      simp [acceptALAS, h]
    · rw [ih]
      simp [acceptALAS, h]

theorem foldl_acceptALAS_snd (flagValue : String) (l : List ALAS) (acc : List ALAS × String) :
    ((l.foldl (acceptALAS flagValue) acc).2 = acc.2
      ∨ ∃ a, a ∈ l ∧ 0 < compareTimestamp a.Updated.Date flagValue
          ∧ (l.foldl (acceptALAS flagValue) acc).2 = a.Updated.Date)
    ∧ cmpCharList acc.2.toList (l.foldl (acceptALAS flagValue) acc).2.toList ≠ .gt
    ∧ ∀ a, a ∈ l → 0 < compareTimestamp a.Updated.Date flagValue →
        cmpCharList a.Updated.Date.toList (l.foldl (acceptALAS flagValue) acc).2.toList ≠ .gt := by
  induction l generalizing acc with
  | nil =>
    refine ⟨Or.inl rfl, ?_, by simp⟩
    simp [cmpCharList_refl]
  | cons a l ih =>
    rw [List.foldl_cons]
    by_cases h : compareTimestamp a.Updated.Date flagValue > 0
    · by_cases h2 : compareTimestamp a.Updated.Date acc.2 > 0
      · have hstep : acceptALAS flagValue acc a = (acc.1 ++ [a], a.Updated.Date) := by
          simp [acceptALAS, h, h2]
        obtain ⟨ihm, ihb, ihall⟩ := ih (acc.1 ++ [a], a.Updated.Date)
        rw [hstep]
        refine ⟨?_, ?_, ?_⟩
        · rcases ihm with heq | ⟨b, hb, hbacc, hbeq⟩
          · exact Or.inr ⟨a, List.mem_cons_self a l, h, heq⟩
          · exact Or.inr ⟨b, List.mem_cons_of_mem a hb, hbacc, hbeq⟩
        · have hlt : cmpCharList a.Updated.Date.toList acc.2.toList = .gt :=
            compareTimestamp_pos_iff.mp h2
          have hflip : cmpCharList acc.2.toList a.Updated.Date.toList = .lt :=
            (cmpCharList_gt_iff _ _).mp hlt
          have hne : cmpCharList acc.2.toList a.Updated.Date.toList ≠ .gt := by
            rw [hflip]; simp
          exact cmpCharList_le_trans hne ihb
        · intro b hb hbacc
          rcases List.mem_cons.mp hb with rfl | hb'
          · exact ihb
          · exact ihall b hb' hbacc
      · have hstep : acceptALAS flagValue acc a = (acc.1 ++ [a], acc.2) := by
          simp [acceptALAS, h, h2]
        obtain ⟨ihm, ihb, ihall⟩ := ih (acc.1 ++ [a], acc.2)
        rw [hstep]
        refine ⟨?_, ihb, ?_⟩
        · rcases ihm with heq | ⟨b, hb, hbacc, hbeq⟩
          · exact Or.inl heq
          · exact Or.inr ⟨b, List.mem_cons_of_mem a hb, hbacc, hbeq⟩
        · intro b hb hbacc
          rcases List.mem_cons.mp hb with rfl | hb'
          · have hne : cmpCharList b.Updated.Date.toList acc.2.toList ≠ .gt := by
              have := (not_iff_not.mpr (@compareTimestamp_pos_iff b.Updated.Date acc.2)).mp h2
              exact this
            exact cmpCharList_le_trans hne ihb
          · exact ihall b hb' hbacc
    · have hstep : acceptALAS flagValue acc a = acc := by
        simp [acceptALAS, h]
      obtain ⟨ihm, ihb, ihall⟩ := ih acc
      rw [hstep]
      refine ⟨?_, ihb, ?_⟩
      · rcases ihm with heq | ⟨b, hb, hbacc, hbeq⟩
        · exact Or.inl heq
        · exact Or.inr ⟨b, List.mem_cons_of_mem a hb, hbacc, hbeq⟩
      · intro b hb hbacc
        rcases List.mem_cons.mp hb with rfl | hb'
        · exact absurd hbacc h
        · exact ihall b hb' hbacc

theorem foldl_acceptALAS_filter (flagValue : String) (l : List ALAS) (acc : List ALAS × String) :
    (l.filter (fun a => decide (compareTimestamp a.Updated.Date flagValue > 0))).foldl
        (acceptALAS flagValue) acc
      = l.foldl (acceptALAS flagValue) acc := by
  induction l generalizing acc with
  | nil => rfl
  | cons a l ih =>
    rw [List.filter_cons]
    by_cases h : compareTimestamp a.Updated.Date flagValue > 0
    · simp only [decide_eq_true h, if_pos, List.foldl_cons, ite_true]
      exact ih (acceptALAS flagValue acc a)
    · have hstep : acceptALAS flagValue acc a = acc := by
        simp [acceptALAS, h]
      simp only [decide_eq_false h, List.foldl_cons, ite_false, Bool.false_eq_true, hstep]
      exact ih acc

/-- The emitted batch of the pure Update core is the canonicalization of the
advisories passing the watermark filter. -/
theorem updateCore_vulnerabilities (u : Updater) (rpmValid : String → Bool)
    (flagValue : String) (info : UpdateInfo) :
    (updateCore u rpmValid flagValue info).Vulnerabilities
      = alasListToVulnerabilities u rpmValid
          (info.ALASList.filter
            (fun a => decide (compareTimestamp a.Updated.Date flagValue > 0))) := by
  have h := foldl_acceptALAS_fst flagValue info.ALASList ([], "")
  simp only [updateCore]
  split <;> simp [h]

theorem toList_eq_nil_imp {s : String} (h : s.toList = []) : s = "" :=
  String.toList_inj.mp (by simpa using h)

/-- If an accepted advisory exists, the tracked maximum timestamp is not the
empty string, because an accepted timestamp strictly exceeds the flag value
and the empty string exceeds nothing. -/
theorem accepted_bound_ne_empty {d flagValue r : String}
    (hacc : 0 < compareTimestamp d flagValue)
    (hb : cmpCharList d.toList r.toList ≠ .gt) : r ≠ "" := by
  intro hr
  subst hr
  cases hd : d.toList with
  | nil =>
    have hd' : d = "" := toList_eq_nil_imp hd
    subst hd'
    exact cmpCharList_nil_left _ (compareTimestamp_pos_iff.mp hacc)
  | cons c cs =>
    rw [hd] at hb
    exact hb (cmpCharList_cons_nil c cs)

/-- C1 (amended): the watermark of the Amazon Update equals the maximum
update timestamp among the advisories passing the watermark filter — whether
or not they yield any valid affected feature — and the watermark fields are
absent exactly when no advisory passes the filter. -/
theorem amzn_watermark_characterization (u : Updater) (rpmValid : String → Bool)
    (flagValue : String) (info : UpdateInfo) :
    (info.ALASList.filter (fun a => decide (compareTimestamp a.Updated.Date flagValue > 0)) = [] →
      (updateCore u rpmValid flagValue info).FlagName = ""
      ∧ (updateCore u rpmValid flagValue info).FlagValue = "")
    ∧ (info.ALASList.filter (fun a => decide (compareTimestamp a.Updated.Date flagValue > 0)) ≠ [] →
      (updateCore u rpmValid flagValue info).FlagName = u.UpdaterFlag
      ∧ (updateCore u rpmValid flagValue info).FlagValue ∈
          (info.ALASList.filter
            (fun a => decide (compareTimestamp a.Updated.Date flagValue > 0))).map
            (fun a => a.Updated.Date)
      ∧ ∀ a ∈ info.ALASList, 0 < compareTimestamp a.Updated.Date flagValue →
          compareTimestamp a.Updated.Date ((updateCore u rpmValid flagValue info).FlagValue) ≤ 0) := by
  obtain ⟨hmem, hinit, hall⟩ := foldl_acceptALAS_snd flagValue info.ALASList ([], "")
  constructor
  · intro hempty
    have hts : (info.ALASList.foldl (acceptALAS flagValue) ([], "")).2 = "" := by
      rcases hmem with heq | ⟨a, ha, hacc, haeq⟩
      · exact heq
      · have hacc' : compareTimestamp a.Updated.Date flagValue > 0 := hacc
        have hmem2 : a ∈ info.ALASList.filter
            (fun x => decide (compareTimestamp x.Updated.Date flagValue > 0)) :=
          List.mem_filter.mpr ⟨ha, decide_eq_true hacc'⟩
        rw [hempty] at hmem2
        exact absurd hmem2 (List.not_mem_nil a)
    simp only [updateCore, hts]
    simp
  · intro hne
    obtain ⟨a0, ha0⟩ := List.exists_mem_of_ne_nil _ hne
    have ha0l : a0 ∈ info.ALASList := (List.mem_filter.mp ha0).1
    have ha0acc : 0 < compareTimestamp a0.Updated.Date flagValue := by
      have := (List.mem_filter.mp ha0).2
      exact of_decide_eq_true this
    have hts : (info.ALASList.foldl (acceptALAS flagValue) ([], "")).2 ≠ "" :=
      accepted_bound_ne_empty ha0acc (hall a0 ha0l ha0acc)
    have hflag : (updateCore u rpmValid flagValue info).FlagName = u.UpdaterFlag
        ∧ (updateCore u rpmValid flagValue info).FlagValue
            = (info.ALASList.foldl (acceptALAS flagValue) ([], "")).2 := by
      simp only [updateCore]
      rw [if_pos hts]
      exact ⟨rfl, rfl⟩
    refine ⟨hflag.1, ?_, ?_⟩
    · rw [hflag.2]
      rcases hmem with heq | ⟨a, ha, hacc, haeq⟩
      · exact absurd heq hts
      · rw [haeq]
        have hacc' : compareTimestamp a.Updated.Date flagValue > 0 := hacc
        exact List.mem_map.mpr ⟨a, List.mem_filter.mpr ⟨ha, decide_eq_true hacc'⟩, rfl⟩
    · intro a ha hacc
      rw [hflag.2]
      exact compareTimestamp_nonpos_iff.mpr (hall a ha hacc)

theorem amzn_watermark_witness :
    (updateCore amazonLinux1Updater acceptAllVersions "" sampleUpdateInfo).FlagName
        = amazonLinux1Updater.UpdaterFlag
    ∧ (updateCore amazonLinux1Updater acceptAllVersions "" sampleUpdateInfo).FlagValue ∈
        (sampleUpdateInfo.ALASList.filter
          (fun a => decide (compareTimestamp a.Updated.Date "" > 0))).map
          (fun a => a.Updated.Date)
    ∧ ∀ a ∈ sampleUpdateInfo.ALASList, 0 < compareTimestamp a.Updated.Date "" →
        compareTimestamp a.Updated.Date
          ((updateCore amazonLinux1Updater acceptAllVersions "" sampleUpdateInfo).FlagValue) ≤ 0 :=
  (amzn_watermark_characterization amazonLinux1Updater acceptAllVersions "" sampleUpdateInfo).2
    (by decide)

/-- C1, counterexample to the claim as stated: with a version oracle
rejecting the single package, the sole advisory yields no valid affected
feature, so under the claim no advisory is accepted and the watermark should
be absent; the code nevertheless emits the watermark, because it tracks the
maximum timestamp before canonicalization. -/
theorem amzn_watermark_counterexample :
    (updateCore amazonLinux1Updater rejectAllVersions "" sampleUpdateInfo).Vulnerabilities = []
    ∧ (updateCore amazonLinux1Updater rejectAllVersions "" sampleUpdateInfo).FlagName
        = "amazonLinux1Updater"
    ∧ (updateCore amazonLinux1Updater rejectAllVersions "" sampleUpdateInfo).FlagValue
        = "2020-01-01 00:00"
    ∧ "2020-01-01 00:00" ≠ "" := by
  decide

/-- C2: an advisory whose update timestamp does not strictly exceed the
stored watermark contributes nothing: every emitted vulnerability stems from
an advisory strictly newer than the watermark, and deleting all stale
advisories from the document leaves the whole response unchanged. -/
theorem amzn_stale_advisories_excluded (u : Updater) (rpmValid : String → Bool)
    (flagValue : String) (info : UpdateInfo) :
    (∀ v ∈ (updateCore u rpmValid flagValue info).Vulnerabilities,
      ∃ alas, alas ∈ info.ALASList ∧ 0 < compareTimestamp alas.Updated.Date flagValue
        ∧ v = alasToVuln u rpmValid alas)
    ∧ updateCore u rpmValid flagValue info
        = updateCore u rpmValid flagValue
            { ALASList := info.ALASList.filter
                (fun a => decide (compareTimestamp a.Updated.Date flagValue > 0)) } := by
  constructor
  · intro v hv
    rw [updateCore_vulnerabilities] at hv
    obtain ⟨alas, halas, hveq⟩ := List.mem_map.mp hv
    have h1 := List.mem_filter.mp halas
    have h2 := List.mem_filter.mp h1.1
    exact ⟨alas, h2.1, of_decide_eq_true h2.2, hveq.symm⟩
  · simp only [updateCore, foldl_acceptALAS_filter]

theorem amzn_stale_advisories_witness :
    ∃ alas, alas ∈ sampleUpdateInfo.ALASList
      ∧ 0 < compareTimestamp alas.Updated.Date ""
      ∧ alasToVuln amazonLinux1Updater acceptAllVersions sampleALAS
          = alasToVuln amazonLinux1Updater acceptAllVersions alas :=
  (amzn_stale_advisories_excluded amazonLinux1Updater acceptAllVersions "" sampleUpdateInfo).1
    (alasToVuln amazonLinux1Updater acceptAllVersions sampleALAS) (by decide)

/-- C4 (amended): for an affected package the canonical version string is
version-dash-release when the epoch field is "0", and
epoch-colon-version-dash-release otherwise. (The claim as stated puts the
release in front of the version in the epoch-"0" case.) -/
theorem amzn_version_string (u : Updater) (rpmValid : String → Bool) (alas : ALAS)
    (f : AffectedFeature) (hf : f ∈ alasToFeatureVersions u rpmValid alas) :
    ∃ p, p ∈ alas.Packages ∧ f.FeatureName = p.Name
      ∧ (p.Epoch = "0" → f.AffectedVersion = p.Version ++ "-" ++ p.Release)
      ∧ (p.Epoch ≠ "0" →
          f.AffectedVersion = p.Epoch ++ ":" ++ p.Version ++ "-" ++ p.Release) := by
  obtain ⟨p, hp, hfeq⟩ := List.mem_map.mp hf
  refine ⟨p, (List.mem_filter.mp hp).1, ?_, ?_, ?_⟩ <;> rw [← hfeq]
  · rfl
  · intro h
    simp [alasPackageFeature, alasPackageVersion, h]
  · intro h
    simp [alasPackageFeature, alasPackageVersion, h]

theorem amzn_version_string_witness :
    ∃ p, p ∈ sampleALAS.Packages
      ∧ (alasPackageFeature amazonLinux1Updater
          { Name := "foo", Epoch := "0", Version := "1.2", Release := "3" }).FeatureName = p.Name
      ∧ (p.Epoch = "0" →
          (alasPackageFeature amazonLinux1Updater
            { Name := "foo", Epoch := "0", Version := "1.2", Release := "3" }).AffectedVersion
            = p.Version ++ "-" ++ p.Release)
      ∧ (p.Epoch ≠ "0" →
          (alasPackageFeature amazonLinux1Updater
            { Name := "foo", Epoch := "0", Version := "1.2", Release := "3" }).AffectedVersion
            = p.Epoch ++ ":" ++ p.Version ++ "-" ++ p.Release) :=
  amzn_version_string amazonLinux1Updater acceptAllVersions sampleALAS
    (alasPackageFeature amazonLinux1Updater
      { Name := "foo", Epoch := "0", Version := "1.2", Release := "3" }) (by decide)

/-- C4, counterexample to the claim as stated: at epoch "0", version "1.2",
release "3" the code emits "1.2-3" while the claimed formula
release-dash-version gives "3-1.2". -/
theorem amzn_version_string_counterexample :
    (alasToFeatureVersions amazonLinux1Updater acceptAllVersions sampleALAS).map
        AffectedFeature.AffectedVersion = ["1.2-3"]
    ∧ "1.2-3" ≠ "3" ++ "-" ++ "1.2" := by
  decide

/-! ## Association-list lemmas for the Debian map state -/

theorem lookupA_setA_self {α : Type} (k : String) (v : α) (m : List (String × α)) :
    lookupA k (setA k v m) = some v := by
  induction m with
  | nil => simp [setA, lookupA]
  | cons p m ih =>
    obtain ⟨k', v'⟩ := p
    by_cases h : k' = k
    · simp [setA, h, lookupA]
    · simp [setA, h, lookupA, ih]

theorem lookupA_setA_ne {α : Type} {k n : String} (hn : n ≠ k) (v : α)
    (m : List (String × α)) : lookupA n (setA k v m) = lookupA n m := by
  induction m with
  | nil => simp [setA, lookupA, Ne.symm hn]
  | cons p m ih =>
    obtain ⟨k', v'⟩ := p
    by_cases h : k' = k
    · subst h
      simp [setA, lookupA, Ne.symm hn]
    · simp [setA, h, lookupA, ih]

theorem lookupA_some_mem {α : Type} {k : String} {v : α} {m : List (String × α)}
    (h : lookupA k m = some v) : (k, v) ∈ m := by
  induction m with
  | nil => simp [lookupA] at h
  | cons p m ih =>
    obtain ⟨k', v'⟩ := p
    by_cases hk : k' = k
    · subst hk
      simp [lookupA] at h
      simp [h]
    · simp [lookupA, hk] at h
      exact List.mem_cons_of_mem _ (ih h)

theorem mem_setA {α : Type} {p : String × α} {k : String} {v : α}
    {m : List (String × α)} (hp : p ∈ setA k v m) : p = (k, v) ∨ p ∈ m := by
  induction m with
  | nil => simpa [setA] using hp
  | cons q m ih =>
    obtain ⟨k', v'⟩ := q
    by_cases h : k' = k
    · rw [setA, if_pos h] at hp
      rcases List.mem_cons.mp hp with h1 | h1
      · exact Or.inl h1
      · exact Or.inr (List.mem_cons_of_mem _ h1)
    · rw [setA, if_neg h] at hp
      rcases List.mem_cons.mp hp with h1 | h1
      · exact Or.inr (by simp [h1])
      · rcases ih h1 with h2 | h2
        · exact Or.inl h2
        · exact Or.inr (List.mem_cons_of_mem _ h2)

/-- The keys of a Go map state. -/
def keysOf {α : Type} (m : List (String × α)) : List String :=
  m.map Prod.fst

theorem lookupA_eq_none_iff {α : Type} (k : String) (m : List (String × α)) :
    lookupA k m = none ↔ k ∉ keysOf m := by
  induction m with
  | nil => simp [lookupA, keysOf]
  | cons p m ih =>
    obtain ⟨k', v'⟩ := p
    by_cases h : k' = k
    · subst h
      simp [lookupA, keysOf]
    · simp [lookupA, h, keysOf, ih, Ne.symm h]
    
theorem keysOf_setA_some {α : Type} {k : String} {m : List (String × α)} (v : α)
    (h : lookupA k m ≠ none) : keysOf (setA k v m) = keysOf m := by
  induction m with
  | nil => simp [lookupA] at h
  | cons p m ih =>
    obtain ⟨k', v'⟩ := p
    by_cases hk : k' = k
    · subst hk
      simp [setA, keysOf]
    · rw [lookupA, if_neg hk] at h
      simp [setA, hk, keysOf] at ih ⊢
      exact ih h

theorem keysOf_setA_none {α : Type} {k : String} {m : List (String × α)} (v : α)
    (h : lookupA k m = none) : keysOf (setA k v m) = keysOf m ++ [k] := by
  induction m with
  | nil => simp [setA, keysOf]
  | cons p m ih =>
    obtain ⟨k', v'⟩ := p
    by_cases hk : k' = k
    · subst hk
      simp [lookupA] at h
    · rw [lookupA, if_neg hk] at h
      simp [setA, hk, keysOf] at ih ⊢
      exact ih h

/-! ## Invariants of the Debian triple loop -/

/-- Invariant of the in-progress map: keys are unique, every stored
vulnerability is keyed by its own name, and every stored vulnerability
carries at least one affected feature. -/
def DInv (st : DState) : Prop :=
  (keysOf st.vulns).Nodup
  ∧ ∀ p ∈ st.vulns, p.2.Vulnerability.Name = p.1 ∧ p.2.Affected ≠ []

theorem processTriple_DInv (dpkgValid : String → Bool) (relMap : List (String × String))
    {st : DState} (t : DTriple) (h : DInv st) : DInv (processTriple dpkgValid relMap st t) := by
  obtain ⟨hnd, hmem⟩ := h
  unfold processTriple
  cases hrel : lookupA t.releaseName relMap with
  | none => exact ⟨hnd, hmem⟩
  | some releaseNumber =>
    by_cases hskip : (!strStartsWith "CVE-" t.vulnName || t.rel.Status == "undetermined") = true
    · simp only [hskip, if_pos]
      exact ⟨hnd, hmem⟩
    · simp only [eq_false_of_ne_true hskip, Bool.false_eq_true, if_false]
      by_cases hver : releaseVersion dpkgValid t.rel = ""
      · rw [if_pos hver]
        cases hex : lookupA t.vulnName st.vulns with
        | none => exact ⟨hnd, hmem⟩
        | some v0 =>
          constructor
          · rw [keysOf_setA_some _ (by rw [hex]; exact Option.some_ne_none v0)]
            exact hnd
          · intro p hp
            rcases mem_setA hp with rfl | hp'
            · obtain ⟨hname, haff⟩ := hmem (t.vulnName, v0) (lookupA_some_mem hex)
              exact ⟨hname, haff⟩
            · exact hmem p hp'
      · rw [if_neg hver]
        cases hex : lookupA t.vulnName st.vulns with
        | none =>
          constructor
          · rw [keysOf_setA_none _ hex]
            have hnotin : t.vulnName ∉ keysOf st.vulns := (lookupA_eq_none_iff _ _).mp hex
            rw [List.nodup_append]
            refine ⟨hnd, List.nodup_singleton _, fun a ha hb => ?_⟩
            rw [List.mem_singleton] at hb
            subst hb
            exact hnotin ha
          · intro p hp
            rcases mem_setA hp with rfl | hp'
            · refine ⟨rfl, by simp⟩
            · exact hmem p hp'
        | some v0 =>
          constructor
          · rw [keysOf_setA_some _ (by rw [hex]; exact Option.some_ne_none v0)]
            exact hnd
          · intro p hp
            rcases mem_setA hp with rfl | hp'
            · obtain ⟨hname, haff⟩ := hmem (t.vulnName, v0) (lookupA_some_mem hex)
              exact ⟨hname, by simp⟩
            · exact hmem p hp'

theorem foldl_processTriple_DInv (dpkgValid : String → Bool)
    (relMap : List (String × String)) (l : List DTriple) {st : DState} (h : DInv st) :
    DInv (l.foldl (processTriple dpkgValid relMap) st) := by
  induction l generalizing st with
  | nil => exact h
  | cons t l ih => exact ih (processTriple_DInv dpkgValid relMap t h)

theorem parseDebianJSON_DInv (dpkgValid : String → Bool)
    (relMap : List (String × String)) (data : JsonData) :
    DInv ((triplesOf data).foldl (processTriple dpkgValid relMap) ⟨[], []⟩) :=
  foldl_processTriple_DInv dpkgValid relMap (triplesOf data) ⟨by simp [keysOf], by simp⟩

/-- C10: every vulnerability in the batch emitted by either updater has a
non-empty Affected list: an advisory or advisory record none of whose
package entries survived validation never appears in the output. -/
theorem emitted_affected_nonempty (u : Updater) (rpmValid : String → Bool)
    (flagValue : String) (info : UpdateInfo) (dpkgValid : String → Bool)
    (relMap : List (String × String)) (data : JsonData) :
    (∀ v ∈ (updateCore u rpmValid flagValue info).Vulnerabilities, v.Affected ≠ [])
    ∧ (∀ v ∈ (parseDebianJSON dpkgValid relMap data).1, v.Affected ≠ []) := by
  constructor
  · intro v hv
    rw [updateCore_vulnerabilities] at hv
    obtain ⟨alas, halas, hveq⟩ := List.mem_map.mp hv
    have hne := (List.mem_filter.mp halas).2
    rw [← hveq]
    simp only [alasToVuln]
    intro hcon
    rw [hcon] at hne
    simp at hne
  · intro v hv
    obtain ⟨p, hp, hpeq⟩ := List.mem_map.mp hv
    obtain ⟨_, hmem⟩ := parseDebianJSON_DInv dpkgValid relMap data
    rw [← hpeq]
    exact (hmem p hp).2

theorem emitted_affected_nonempty_witness :
    (alasToVuln amazonLinux1Updater acceptAllVersions sampleALAS).Affected ≠ [] :=
  (emitted_affected_nonempty amazonLinux1Updater acceptAllVersions "" sampleUpdateInfo
      acceptAllVersions sampleRelMap dataHighTwice).1
    (alasToVuln amazonLinux1Updater acceptAllVersions sampleALAS) (by decide)

def emptyDState : DState := { vulns := [], unknownReleases := [] }

/-- A sample open/high triple under a known release and a CVE name. -/
def sampleTriple : DTriple :=
  { pkgName := "pkg", vulnName := "CVE-2020-1", description := "d",
    releaseName := "buster", rel := highRel }

def resolvedZeroRel : JsonRel :=
  { FixedVersion := "0", Status := "resolved", Urgency := "low" }

def resolvedZeroTriple : DTriple :=
  { pkgName := "pkg", vulnName := "CVE-2020-9", description := "d",
    releaseName := "buster", rel := resolvedZeroRel }

theorem getLast?_append_singleton {α : Type} (l : List α) (a : α) :
    (l ++ [a]).getLast? = some a := by
  induction l with
  | nil => rfl
  | cons x xs ih =>
    rw [List.cons_append]
    cases hxs : xs ++ [a] with
    | nil => exact absurd hxs (by simp)
    | cons y ys =>
      rw [List.getLast?_cons_cons, ← hxs, ih]

/-- C5: processing a (package, advisory, release) triple with a known
release name, a CVE advisory name and status open appends to the advisory
an affected feature whose AffectedVersion is the MaxVersion sentinel and
whose FixedInVersion is empty. -/
theorem debian_open_feature (dpkgValid : String → Bool) (relMap : List (String × String))
    (st : DState) (t : DTriple) (releaseNumber : String)
    (hrel : lookupA t.releaseName relMap = some releaseNumber)
    (hcve : strStartsWith "CVE-" t.vulnName = true)
    (hopen : t.rel.Status = "open") :
    ∃ v, lookupA t.vulnName (processTriple dpkgValid relMap st t).vulns = some v
      ∧ ∃ f, v.Affected.getLast? = some f
        ∧ f.AffectedVersion = MaxVersion
        ∧ f.FixedInVersion = ""
        ∧ f.FeatureName = t.pkgName
        ∧ f.Namespace
            = { Name := "debian:" ++ releaseNumber, VersionFormat := dpkgParserName } := by
  have hskip : (!strStartsWith "CVE-" t.vulnName || t.rel.Status == "undetermined") = false := by
    rw [hcve, hopen]
    rfl
  have hver : releaseVersion dpkgValid t.rel = MaxVersion := by
    simp [releaseVersion, hopen]
  unfold processTriple
  rw [hrel]
  simp only [hskip, Bool.false_eq_true, if_false, hver]
  rw [if_neg (by decide : ¬ (MaxVersion = ""))]
  refine ⟨_, lookupA_setA_self _ _ _,
    debianFeature t.pkgName releaseNumber MaxVersion,
    getLast?_append_singleton _ _, rfl, ?_, rfl, rfl⟩
  simp [debianFeature]

theorem debian_open_feature_witness :
    ∃ v, lookupA "CVE-2020-1"
        (processTriple acceptAllVersions sampleRelMap emptyDState sampleTriple).vulns = some v
      ∧ ∃ f, v.Affected.getLast? = some f
        ∧ f.AffectedVersion = MaxVersion
        ∧ f.FixedInVersion = ""
        ∧ f.FeatureName = "pkg"
        ∧ f.Namespace = { Name := "debian:" ++ "10", VersionFormat := dpkgParserName } :=
  debian_open_feature acceptAllVersions sampleRelMap emptyDState sampleTriple "10"
    (by decide) (by decide) rfl

/-- C6: a (package, advisory, release) triple with status resolved and the
literal fixed version "0" never changes any Affected list: no affected
feature is produced for that triple. -/
theorem debian_fixed_zero_no_feature (dpkgValid : String → Bool)
    (relMap : List (String × String)) (st : DState) (t : DTriple) (n : String)
    (hres : t.rel.Status = "resolved") (hzero : t.rel.FixedVersion = "0") :
    (lookupA n (processTriple dpkgValid relMap st t).vulns).map
        VulnerabilityWithAffected.Affected
      = (lookupA n st.vulns).map VulnerabilityWithAffected.Affected := by
  have hver : releaseVersion dpkgValid t.rel = "" := by
    by_cases h : dpkgValid t.rel.FixedVersion
    · simp [releaseVersion, hres, hzero, h]
    · simp [releaseVersion, hres, hzero, h]
  unfold processTriple
  cases hrel : lookupA t.releaseName relMap with
  | none => rfl
  | some releaseNumber =>
    by_cases hskip : (!strStartsWith "CVE-" t.vulnName || t.rel.Status == "undetermined") = true
    · simp only [hskip, if_pos]
    · simp only [eq_false_of_ne_true hskip, Bool.false_eq_true, if_false]
      rw [hver, if_pos rfl]
      cases hex : lookupA t.vulnName st.vulns with
      | none => rfl
      | some v0 =>
        simp only [Option.getD_some]
        by_cases hn : n = t.vulnName
        · subst hn
          rw [lookupA_setA_self, hex]
          rfl
        · rw [lookupA_setA_ne hn]

theorem debian_fixed_zero_witness :
    (lookupA "CVE-2020-9"
        (processTriple acceptAllVersions sampleRelMap emptyDState resolvedZeroTriple).vulns).map
        VulnerabilityWithAffected.Affected
      = (lookupA "CVE-2020-9" emptyDState.vulns).map VulnerabilityWithAffected.Affected :=
  debian_fixed_zero_no_feature acceptAllVersions sampleRelMap emptyDState resolvedZeroTriple
    "CVE-2020-9" rfl rfl

/-! ## Severity bookkeeping of the Debian merge -/

/-- The severity currently recorded for an advisory name: Unknown when the
advisory is not in the map, as a fresh vulnerability starts at Unknown. -/
def sevAt (n : String) (st : DState) : Severity :=
  ((lookupA n st.vulns).map VulnerabilityWithAffected.Severity).getD Severity.Unknown

theorem mergeSeverity_idem (a b : Severity) :
    mergeSeverity (mergeSeverity a b) b = mergeSeverity a b := by
  cases a <;> cases b <;> decide

theorem mergeSeverity_toNat (a b : Severity) :
    (mergeSeverity a b).toNat = Nat.max a.toNat b.toNat := by
  cases a <;> cases b <;> decide

/-- Branch reduction: unknown release name. -/
theorem processTriple_unknownRel (dpkgValid : String → Bool)
    (rm : List (String × String)) (st : DState) (t : DTriple)
    (hrel : lookupA t.releaseName rm = none) :
    processTriple dpkgValid rm st t
      = { st with unknownReleases := insertS t.releaseName st.unknownReleases } := by
  unfold processTriple
  rw [hrel]

/-- Branch reduction: non-CVE advisory or undetermined status. -/
theorem processTriple_skipCase (dpkgValid : String → Bool)
    (rm : List (String × String)) (st : DState) (t : DTriple) (releaseNumber : String)
    (hrel : lookupA t.releaseName rm = some releaseNumber)
    (hskip : (!strStartsWith "CVE-" t.vulnName || t.rel.Status == "undetermined") = true) :
    processTriple dpkgValid rm st t = st := by
  unfold processTriple
  rw [hrel]
  simp only [hskip, if_pos]

/-- Branch reduction: merged triple that yields no version and whose
advisory is not yet stored — the fresh vulnerability is dropped. -/
theorem processTriple_drop (dpkgValid : String → Bool)
    (rm : List (String × String)) (st : DState) (t : DTriple) (releaseNumber : String)
    (hrel : lookupA t.releaseName rm = some releaseNumber)
    (hskip : (!strStartsWith "CVE-" t.vulnName || t.rel.Status == "undetermined") = false)
    (hver : releaseVersion dpkgValid t.rel = "")
    (hex : lookupA t.vulnName st.vulns = none) :
    processTriple dpkgValid rm st t = st := by
  unfold processTriple
  rw [hrel]
  simp only [hskip, Bool.false_eq_true, if_false]
  rw [hver, if_pos rfl, hex]

/-- Branch reduction: merged triple that yields no version on an advisory
already stored — only the severity merge is visible. -/
theorem processTriple_sevOnly (dpkgValid : String → Bool)
    (rm : List (String × String)) (st : DState) (t : DTriple) (releaseNumber : String)
    (v0 : VulnerabilityWithAffected)
    (hrel : lookupA t.releaseName rm = some releaseNumber)
    (hskip : (!strStartsWith "CVE-" t.vulnName || t.rel.Status == "undetermined") = false)
    (hver : releaseVersion dpkgValid t.rel = "")
    (hex : lookupA t.vulnName st.vulns = some v0) :
    processTriple dpkgValid rm st t
      = { st with
          vulns := setA t.vulnName
            (withSeverity v0 (mergeSeverity v0.Vulnerability.Severity
              (SeverityFromUrgency t.rel.Urgency))) st.vulns } := by
  unfold processTriple
  rw [hrel]
  simp only [hskip, Bool.false_eq_true, if_false]
  rw [hver, if_pos rfl, hex]
  rfl

/-- Branch reduction: merged triple that yields a version — severity merge
plus feature append, on the stored or fresh vulnerability. -/
theorem processTriple_store (dpkgValid : String → Bool)
    (rm : List (String × String)) (st : DState) (t : DTriple) (releaseNumber : String)
    (hrel : lookupA t.releaseName rm = some releaseNumber)
    (hskip : (!strStartsWith "CVE-" t.vulnName || t.rel.Status == "undetermined") = false)
    (hver : releaseVersion dpkgValid t.rel ≠ "") :
    processTriple dpkgValid rm st t
      = { st with
          vulns := setA t.vulnName
            (let v0 := (lookupA t.vulnName st.vulns).getD (freshVuln t.vulnName t.description)
             let v1 := withSeverity v0 (mergeSeverity v0.Vulnerability.Severity
               (SeverityFromUrgency t.rel.Urgency))
             { v1 with Affected := v1.Affected
                 ++ [debianFeature t.pkgName releaseNumber (releaseVersion dpkgValid t.rel)] })
            st.vulns } := by
  unfold processTriple
  rw [hrel]
  simp only [hskip, Bool.false_eq_true, if_false]
  rw [if_neg hver]

/-- The severity of the stored-or-fresh vulnerability equals the recorded
severity of the advisory name. -/
theorem getD_severity (n d : String) (st : DState) :
    ((lookupA n st.vulns).getD (freshVuln n d)).Vulnerability.Severity = sevAt n st := by
  cases hex : lookupA n st.vulns with
  | none => simp [sevAt, hex, freshVuln]
  | some v => simp [sevAt, hex, VulnerabilityWithAffected.Severity]

theorem withSeverity_severity (v : VulnerabilityWithAffected) (s : Severity) :
    (withSeverity v s).Vulnerability.Severity = s := rfl

theorem sevAt_setA (n : String) (v : VulnerabilityWithAffected)
    (m : List (String × VulnerabilityWithAffected)) (x : List String) :
    sevAt n { vulns := setA n v m, unknownReleases := x } = v.Vulnerability.Severity := by
  simp [sevAt, lookupA_setA_self, VulnerabilityWithAffected.Severity]

/-- A merged and stored triple updates the recorded severity of its advisory
to the merge of the previous severity with the severity of its urgency. -/
theorem sevAt_processTriple_store (dpkgValid : String → Bool)
    (rm : List (String × String)) (st : DState) (t : DTriple) (releaseNumber : String)
    (hrel : lookupA t.releaseName rm = some releaseNumber)
    (hskip : (!strStartsWith "CVE-" t.vulnName || t.rel.Status == "undetermined") = false)
    (hver : releaseVersion dpkgValid t.rel ≠ "") :
    sevAt t.vulnName (processTriple dpkgValid rm st t)
      = mergeSeverity (sevAt t.vulnName st) (SeverityFromUrgency t.rel.Urgency) := by
  rw [processTriple_store dpkgValid rm st t releaseNumber hrel hskip hver]
  rw [sevAt_setA]
  show (withSeverity ((lookupA t.vulnName st.vulns).getD (freshVuln t.vulnName t.description))
      (mergeSeverity ((lookupA t.vulnName st.vulns).getD
          (freshVuln t.vulnName t.description)).Vulnerability.Severity
        (SeverityFromUrgency t.rel.Urgency))).Vulnerability.Severity
    = mergeSeverity (sevAt t.vulnName st) (SeverityFromUrgency t.rel.Urgency)
  rw [withSeverity_severity, getD_severity]

theorem sevAt_vulns_eq {st st' : DState} (n : String) (h : st.vulns = st'.vulns) :
    sevAt n st = sevAt n st' := by
  unfold sevAt
  rw [h]

theorem sevAt_setA_ne {n k : String} (hn : n ≠ k) (v : VulnerabilityWithAffected)
    (m : List (String × VulnerabilityWithAffected)) (x : List String) :
    sevAt n { vulns := setA k v m, unknownReleases := x }
      = ((lookupA n m).map VulnerabilityWithAffected.Severity).getD Severity.Unknown := by
  unfold sevAt
  rw [lookupA_setA_ne hn]

/-- A triple never touches the recorded severity of another advisory. -/
theorem sevAt_processTriple_other (dpkgValid : String → Bool)
    (rm : List (String × String)) (st : DState) (t : DTriple) (n : String)
    (hn : n ≠ t.vulnName) :
    sevAt n (processTriple dpkgValid rm st t) = sevAt n st := by
  cases hrel : lookupA t.releaseName rm with
  | none => exact sevAt_vulns_eq n (by rw [processTriple_unknownRel dpkgValid rm st t hrel])
  | some relNum =>
    by_cases hskip : (!strStartsWith "CVE-" t.vulnName || t.rel.Status == "undetermined") = true
    · rw [processTriple_skipCase dpkgValid rm st t relNum hrel hskip]
    · have hskip' := eq_false_of_ne_true hskip
      by_cases hver : releaseVersion dpkgValid t.rel = ""
      · cases hex : lookupA t.vulnName st.vulns with
        | none => rw [processTriple_drop dpkgValid rm st t relNum hrel hskip' hver hex]
        | some v0 =>
          rw [processTriple_sevOnly dpkgValid rm st t relNum v0 hrel hskip' hver hex,
            sevAt_setA_ne hn]
          rfl
      · rw [processTriple_store dpkgValid rm st t relNum hrel hskip' hver,
          sevAt_setA_ne hn]
        rfl

/-- A merged but featureless triple on a stored advisory updates its
recorded severity by the same merge rule. -/
theorem sevAt_processTriple_sevOnly (dpkgValid : String → Bool)
    (rm : List (String × String)) (st : DState) (t : DTriple) (releaseNumber : String)
    (v0 : VulnerabilityWithAffected)
    (hrel : lookupA t.releaseName rm = some releaseNumber)
    (hskip : (!strStartsWith "CVE-" t.vulnName || t.rel.Status == "undetermined") = false)
    (hver : releaseVersion dpkgValid t.rel = "")
    (hex : lookupA t.vulnName st.vulns = some v0) :
    sevAt t.vulnName (processTriple dpkgValid rm st t)
      = mergeSeverity (sevAt t.vulnName st) (SeverityFromUrgency t.rel.Urgency) := by
  rw [processTriple_sevOnly dpkgValid rm st t releaseNumber v0 hrel hskip hver hex, sevAt_setA,
    withSeverity_severity]
  have hsev : sevAt t.vulnName st = v0.Vulnerability.Severity := by
    simp [sevAt, hex, VulnerabilityWithAffected.Severity]
  rw [hsev]

/-- Processing the same triple twice leaves every recorded severity exactly
where one processing left it: the severity merge is idempotent. -/
theorem processTriple_sevAt_idem (dpkgValid : String → Bool)
    (rm : List (String × String)) (st : DState) (t : DTriple) (n : String) :
    sevAt n (processTriple dpkgValid rm (processTriple dpkgValid rm st t) t)
      = sevAt n (processTriple dpkgValid rm st t) := by
  by_cases hn : n = t.vulnName
  · subst hn
    cases hrel : lookupA t.releaseName rm with
    | none =>
      exact sevAt_vulns_eq _
        (by rw [processTriple_unknownRel dpkgValid rm (processTriple dpkgValid rm st t) t hrel])
    | some relNum =>
      by_cases hskip : (!strStartsWith "CVE-" t.vulnName || t.rel.Status == "undetermined") = true
      · rw [processTriple_skipCase dpkgValid rm (processTriple dpkgValid rm st t) t relNum
          hrel hskip]
      · have hskip' := eq_false_of_ne_true hskip
        by_cases hver : releaseVersion dpkgValid t.rel = ""
        · cases hex : lookupA t.vulnName st.vulns with
          | none =>
            have hdrop := processTriple_drop dpkgValid rm st t relNum hrel hskip' hver hex
            rw [hdrop, hdrop]
          | some v0 =>
            have hso := processTriple_sevOnly dpkgValid rm st t relNum v0 hrel hskip' hver hex
            have hex2 : lookupA t.vulnName (processTriple dpkgValid rm st t).vulns
                = some (withSeverity v0 (mergeSeverity v0.Vulnerability.Severity
                    (SeverityFromUrgency t.rel.Urgency))) := by
              rw [hso]
              exact lookupA_setA_self _ _ _
            rw [sevAt_processTriple_sevOnly dpkgValid rm (processTriple dpkgValid rm st t) t
              relNum _ hrel hskip' hver hex2]
            rw [sevAt_processTriple_sevOnly dpkgValid rm st t relNum v0 hrel hskip' hver hex]
            exact mergeSeverity_idem _ _
        · rw [sevAt_processTriple_store dpkgValid rm (processTriple dpkgValid rm st t) t
            relNum hrel hskip' hver]
          rw [sevAt_processTriple_store dpkgValid rm st t relNum hrel hskip' hver]
          exact mergeSeverity_idem _ _
  · rw [sevAt_processTriple_other dpkgValid rm (processTriple dpkgValid rm st t) t n hn,
      sevAt_processTriple_other dpkgValid rm st t n hn]

/-- C7: raw records sharing one advisory name are merged into a single
emitted vulnerability — the emitted advisory names are unique — and the
severity bookkeeping is a maximum: a merged open triple raises the recorded
severity of its advisory to the maximum, in the canonical order, of the
current severity and the severity derived from the release urgency, and
processing the same triple twice leaves every recorded severity exactly
where one processing left it; on the concrete document carrying the same
(advisory, release, urgency high) triple twice, the emitted severity is
High. -/
theorem debian_severity_merge (dpkgValid : String → Bool)
    (rm : List (String × String)) (data : JsonData) (st : DState) (t : DTriple)
    (n : String) (releaseNumber : String) :
    ((parseDebianJSON dpkgValid rm data).1.map VulnerabilityWithAffected.Name).Nodup
    ∧ sevAt n (processTriple dpkgValid rm (processTriple dpkgValid rm st t) t)
        = sevAt n (processTriple dpkgValid rm st t)
    ∧ (lookupA t.releaseName rm = some releaseNumber →
        strStartsWith "CVE-" t.vulnName = true → t.rel.Status = "open" →
        (sevAt t.vulnName (processTriple dpkgValid rm st t)).toNat
          = Nat.max (sevAt t.vulnName st).toNat
              (SeverityFromUrgency t.rel.Urgency).toNat)
    ∧ (parseDebianJSON acceptAllVersions sampleRelMap dataHighTwice).1.map
        VulnerabilityWithAffected.Severity = [Severity.High] := by
  refine ⟨?_, processTriple_sevAt_idem dpkgValid rm st t n, ?_, by decide⟩
  · obtain ⟨hnd, hmem⟩ := parseDebianJSON_DInv dpkgValid rm data
    show ((((triplesOf data).foldl (processTriple dpkgValid rm) ⟨[], []⟩).vulns.map
      Prod.snd).map VulnerabilityWithAffected.Name).Nodup
    rw [List.map_map]
    have hcong : ((triplesOf data).foldl (processTriple dpkgValid rm) ⟨[], []⟩).vulns.map
        (VulnerabilityWithAffected.Name ∘ Prod.snd)
        = ((triplesOf data).foldl (processTriple dpkgValid rm) ⟨[], []⟩).vulns.map Prod.fst := by
      apply List.map_congr_left
      intro p hp
      exact (hmem p hp).1
    rw [hcong]
    exact hnd
  · intro hrel hcve hopen
    have hskip' : (!strStartsWith "CVE-" t.vulnName || t.rel.Status == "undetermined")
        = false := by
      rw [hcve, hopen]
      rfl
    have hmax : releaseVersion dpkgValid t.rel = MaxVersion := by
      simp [releaseVersion, hopen]
    have hver : releaseVersion dpkgValid t.rel ≠ "" := by
      rw [hmax]
      decide
    rw [sevAt_processTriple_store dpkgValid rm st t releaseNumber hrel hskip' hver]
    exact mergeSeverity_toNat _ _

theorem debian_severity_merge_witness :
    (sevAt "CVE-2020-1"
        (processTriple acceptAllVersions sampleRelMap emptyDState sampleTriple)).toNat
      = Nat.max (sevAt "CVE-2020-1" emptyDState).toNat
          (SeverityFromUrgency sampleTriple.rel.Urgency).toNat :=
  (debian_severity_merge acceptAllVersions sampleRelMap dataHighTwice emptyDState
      sampleTriple "CVE-2020-1" "10").2.2.1 (by decide) (by decide) (by decide)

/-! ## Whitespace normalization of descriptions -/

/-- No two adjacent characters of the list are whitespace. -/
def noDoubleSpaceB : List Char → Bool
  | c1 :: c2 :: rest => (!(isRegexSpace c1 && isRegexSpace c2)) && noDoubleSpaceB (c2 :: rest)
  | _ => true

/-- The whitespace-normalized shape: every whitespace character left in the
string is a plain space, no two adjacent whitespace characters occur, and
the string neither starts nor ends with a whitespace character. -/
def isNormalizedWhitespace (s : String) : Prop :=
  (∀ c ∈ s.toList, isRegexSpace c = true → c = ' ')
  ∧ noDoubleSpaceB s.toList = true
  ∧ (∀ c, s.toList.head? = some c → isRegexSpace c = false)
  ∧ (∀ c, s.toList.getLast? = some c → isRegexSpace c = false)

theorem regexSpace_unicodeSpace {c : Char} (h : isRegexSpace c = true) :
    isUnicodeSpace c = true := by
  simp only [isRegexSpace, Bool.or_eq_true, decide_eq_true_eq] at h
  rcases h with ((((rfl | rfl) | rfl) | rfl) | rfl) <;> decide

theorem collapseSpaceAux_space (cs : List Char) (b : Bool) :
    ∀ c ∈ collapseSpaceAux b cs, isRegexSpace c = true → c = ' ' := by
  induction cs generalizing b with
  | nil =>
    intro c hc
    simp [collapseSpaceAux] at hc
  | cons x xs ih =>
    intro c hc hcs
    by_cases hx : isRegexSpace x
    · rw [collapseSpaceAux, if_pos hx] at hc
      cases b with
      | true => exact ih true c hc hcs
      | false =>
        rcases List.mem_cons.mp hc with rfl | hc'
        · rfl
        · exact ih true c hc' hcs
    · rw [collapseSpaceAux, if_neg hx] at hc
      rcases List.mem_cons.mp hc with rfl | hc'
      · exact absurd hcs hx
      · exact ih false c hc' hcs

theorem collapseSpaceAux_true_head (cs : List Char) :
    ∀ c, (collapseSpaceAux true cs).head? = some c → isRegexSpace c = false := by
  induction cs with
  | nil =>
    intro c hc
    simp [collapseSpaceAux] at hc
  | cons x xs ih =>
    intro c hc
    by_cases hx : isRegexSpace x
    · rw [collapseSpaceAux, if_pos hx] at hc
      exact ih c hc
    · rw [collapseSpaceAux, if_neg hx] at hc
      simp only [List.head?_cons, Option.some.injEq] at hc
      rw [← hc]
      exact eq_false_of_ne_true hx

theorem collapseSpaceAux_noDouble (cs : List Char) (b : Bool) :
    noDoubleSpaceB (collapseSpaceAux b cs) = true := by
  induction cs generalizing b with
  | nil => rfl
  | cons x xs ih =>
    by_cases hx : isRegexSpace x
    · cases b with
      | true =>
        rw [collapseSpaceAux, if_pos hx]
        exact ih true
      | false =>
        rw [collapseSpaceAux, if_pos hx]
        cases hl : collapseSpaceAux true xs with
        | nil => rfl
        | cons y ys =>
          have hy : isRegexSpace y = false :=
            collapseSpaceAux_true_head xs y (by rw [hl]; rfl)
          show noDoubleSpaceB (' ' :: y :: ys) = true
          rw [noDoubleSpaceB, hy]
          have := ih true
          rw [hl] at this
          simp [this]
    · rw [collapseSpaceAux, if_neg hx]
      cases hl : collapseSpaceAux false xs with
      | nil => rfl
      | cons y ys =>
        show noDoubleSpaceB (x :: y :: ys) = true
        rw [noDoubleSpaceB, eq_false_of_ne_true hx]
        have := ih false
        rw [hl] at this
        simp [this]

theorem getLast?_cons_ne {α : Type} (a : α) {l : List α} (h : l ≠ []) :
    (a :: l).getLast? = l.getLast? := by
  cases l with
  | nil => exact absurd rfl h
  | cons y ys => exact List.getLast?_cons_cons

theorem collapseSpaceAux_getLast (cs : List Char) (b : Bool) {c : Char}
    (hc : cs.getLast? = some c) (hcs : isRegexSpace c = false) :
    (collapseSpaceAux b cs).getLast? = some c := by
  induction cs generalizing b with
  | nil => simp at hc
  | cons x xs ih =>
    cases xs with
    | nil =>
      have hx : x = c := by simpa using hc
      subst hx
      rw [collapseSpaceAux, if_neg (by rw [hcs]; simp)]
      rfl
    | cons y ys =>
      have hc' : (y :: ys).getLast? = some c := by
        rw [List.getLast?_cons_cons] at hc
        exact hc
      have hne : ∀ b', collapseSpaceAux b' (y :: ys) ≠ [] := by
        intro b' h0
        have h1 := ih b' hc'
        rw [h0] at h1
        simp at h1
      by_cases hx : isRegexSpace x
      · cases b with
        | true =>
          rw [collapseSpaceAux, if_pos hx, if_pos rfl]
          exact ih true hc'
        | false =>
          rw [collapseSpaceAux, if_pos hx, if_neg (by simp)]
          rw [getLast?_cons_ne _ (hne true)]
          exact ih true hc'
      · rw [collapseSpaceAux, if_neg hx]
        rw [getLast?_cons_ne _ (hne false)]
        exact ih false hc'

theorem head?_dropWhile_not {p : Char → Bool} (l : List Char) :
    ∀ c, (l.dropWhile p).head? = some c → p c = false := by
  induction l with
  | nil =>
    intro c hc
    simp at hc
  | cons x xs ih =>
    intro c hc
    by_cases hx : p x
    · rw [List.dropWhile_cons, if_pos hx] at hc
      exact ih c hc
    · rw [List.dropWhile_cons, if_neg hx] at hc
      simp only [List.head?_cons, Option.some.injEq] at hc
      rw [← hc]
      exact eq_false_of_ne_true hx

theorem getLast?_append_right {α : Type} (l1 l2 : List α) (h : l2 ≠ []) :
    (l1 ++ l2).getLast? = l2.getLast? := by
  induction l1 with
  | nil => rfl
  | cons x xs ih =>
    rw [List.cons_append]
    cases hc : xs ++ l2 with
    | nil =>
      rcases List.append_eq_nil.mp hc with ⟨-, h2⟩
      exact absurd h2 h
    | cons y ys =>
      rw [List.getLast?_cons_cons, ← hc, ih]

theorem getLast?_dropWhile {p : Char → Bool} (m : List Char)
    (h : m.dropWhile p ≠ []) : (m.dropWhile p).getLast? = m.getLast? := by
  obtain ⟨pre, hpre⟩ := (List.dropWhile_suffix p : m.dropWhile p <:+ m)
  conv_rhs => rw [← hpre]
  rw [getLast?_append_right _ _ h]

/-- The trim-and-collapse pipeline of the Amazon description normalization
always produces a whitespace-normalized string. -/
theorem isNormalized_trim_collapse (s : String) :
    isNormalizedWhitespace (collapseSpace (trimSpace s)) := by
  refine ⟨collapseSpaceAux_space _ false, collapseSpaceAux_noDouble _ false, ?_, ?_⟩
  · intro c hc
    have hc' : (collapseSpaceAux false
        (((s.toList.dropWhile isUnicodeSpace).reverse.dropWhile
          isUnicodeSpace).reverse)).head? = some c := hc
    cases hT : ((s.toList.dropWhile isUnicodeSpace).reverse.dropWhile
        isUnicodeSpace).reverse with
    | nil =>
      rw [hT] at hc'
      simp [collapseSpaceAux] at hc'
    | cons x xs =>
      rw [hT] at hc'
      have hxu : isUnicodeSpace x = false := by
        have hhead : (((s.toList.dropWhile isUnicodeSpace).reverse.dropWhile
            isUnicodeSpace).reverse).head? = some x := by
          rw [hT]
          rfl
        rw [List.head?_reverse] at hhead
        have hne : (s.toList.dropWhile isUnicodeSpace).reverse.dropWhile
            isUnicodeSpace ≠ [] := by
          intro h0
          rw [h0] at hhead
          simp at hhead
        rw [getLast?_dropWhile _ hne, List.getLast?_reverse] at hhead
        exact head?_dropWhile_not _ x hhead
      have hxr : isRegexSpace x = false := by
        cases hre : isRegexSpace x with
        | false => rfl
        | true =>
          rw [regexSpace_unicodeSpace hre] at hxu
          simp at hxu
      rw [collapseSpaceAux, if_neg (by rw [hxr]; simp)] at hc'
      simp only [List.head?_cons, Option.some.injEq] at hc'
      rw [← hc']
      exact hxr
  · intro c hc
    have hc' : (collapseSpaceAux false
        (((s.toList.dropWhile isUnicodeSpace).reverse.dropWhile
          isUnicodeSpace).reverse)).getLast? = some c := hc
    have hgl : (((s.toList.dropWhile isUnicodeSpace).reverse.dropWhile
        isUnicodeSpace).reverse).getLast?
        = ((s.toList.dropWhile isUnicodeSpace).reverse.dropWhile isUnicodeSpace).head? :=
      List.getLast?_reverse _
    cases hT : ((s.toList.dropWhile isUnicodeSpace).reverse.dropWhile
        isUnicodeSpace).reverse with
    | nil =>
      rw [hT] at hc'
      simp [collapseSpaceAux] at hc'
    | cons x xs =>
      cases hh : ((s.toList.dropWhile isUnicodeSpace).reverse.dropWhile
          isUnicodeSpace).head? with
      | none =>
        have h0 : (s.toList.dropWhile isUnicodeSpace).reverse.dropWhile
            isUnicodeSpace = [] := List.head?_eq_none_iff.mp hh
        rw [h0] at hT
        simp at hT
      | some d =>
        have hdu : isUnicodeSpace d = false := head?_dropWhile_not _ d hh
        have hdr : isRegexSpace d = false := by
          cases hre : isRegexSpace d with
          | false => rfl
          | true =>
            rw [regexSpace_unicodeSpace hre] at hdu
            simp at hdu
        have hlast := collapseSpaceAux_getLast
          (((s.toList.dropWhile isUnicodeSpace).reverse.dropWhile isUnicodeSpace).reverse)
          false (by rw [hgl, hh]) hdr
        have hdc : d = c := by
          rw [hlast] at hc'
          simpa using hc'
        rw [← hdc]
        exact hdr

theorem withSeverity_description (v : VulnerabilityWithAffected) (s : Severity) :
    (withSeverity v s).Vulnerability.Description = v.Vulnerability.Description := rfl

/-- Every vulnerability in the map after one triple carries either a
description already present or the description of that triple, verbatim. -/
theorem processTriple_desc (dpkgValid : String → Bool) (rm : List (String × String))
    (st : DState) (t : DTriple) {p : String × VulnerabilityWithAffected}
    (hp : p ∈ (processTriple dpkgValid rm st t).vulns) :
    p.2.Vulnerability.Description
        ∈ st.vulns.map (fun q => q.2.Vulnerability.Description)
    ∨ p.2.Vulnerability.Description = t.description := by
  cases hrel : lookupA t.releaseName rm with
  | none =>
    rw [processTriple_unknownRel dpkgValid rm st t hrel] at hp
    exact Or.inl (List.mem_map.mpr ⟨p, hp, rfl⟩)
  | some relNum =>
    by_cases hskip : (!strStartsWith "CVE-" t.vulnName || t.rel.Status == "undetermined") = true
    · rw [processTriple_skipCase dpkgValid rm st t relNum hrel hskip] at hp
      exact Or.inl (List.mem_map.mpr ⟨p, hp, rfl⟩)
    · have hskip' := eq_false_of_ne_true hskip
      by_cases hver : releaseVersion dpkgValid t.rel = ""
      · cases hex : lookupA t.vulnName st.vulns with
        | none =>
          rw [processTriple_drop dpkgValid rm st t relNum hrel hskip' hver hex] at hp
          exact Or.inl (List.mem_map.mpr ⟨p, hp, rfl⟩)
        | some v0 =>
          rw [processTriple_sevOnly dpkgValid rm st t relNum v0 hrel hskip' hver hex] at hp
          rcases mem_setA hp with rfl | hp'
          · exact Or.inl (List.mem_map.mpr ⟨(t.vulnName, v0), lookupA_some_mem hex, rfl⟩)
          · exact Or.inl (List.mem_map.mpr ⟨p, hp', rfl⟩)
      · rw [processTriple_store dpkgValid rm st t relNum hrel hskip' hver] at hp
        rcases mem_setA hp with rfl | hp'
        · cases hex : lookupA t.vulnName st.vulns with
          | none =>
            right
            rfl
          | some v0 =>
            left
            exact List.mem_map.mpr ⟨(t.vulnName, v0), lookupA_some_mem hex, rfl⟩
        · exact Or.inl (List.mem_map.mpr ⟨p, hp', rfl⟩)

theorem foldl_processTriple_desc (dpkgValid : String → Bool)
    (rm : List (String × String)) (l : List DTriple) (st : DState)
    {p : String × VulnerabilityWithAffected}
    (hp : p ∈ (l.foldl (processTriple dpkgValid rm) st).vulns) :
    p.2.Vulnerability.Description
        ∈ st.vulns.map (fun q => q.2.Vulnerability.Description)
    ∨ ∃ t, t ∈ l ∧ p.2.Vulnerability.Description = t.description := by
  induction l generalizing st with
  | nil => exact Or.inl (List.mem_map.mpr ⟨p, hp, rfl⟩)
  | cons t l ih =>
    rcases ih (processTriple dpkgValid rm st t) hp with hmem | ⟨t', ht', heq⟩
    · obtain ⟨q, hq, hqe⟩ := List.mem_map.mp hmem
      rcases processTriple_desc dpkgValid rm st t hq with h1 | h1
      · left
        rw [← hqe]
        exact h1
      · right
        exact ⟨t, List.mem_cons_self t l, by rw [← hqe]; exact h1⟩
    · exact Or.inr ⟨t', List.mem_cons_of_mem t ht', heq⟩

/-- C9 (amended): every vulnerability emitted by the Amazon updater has a
whitespace-normalized description — outer whitespace trimmed and internal
whitespace runs collapsed to single spaces — while the Debian updater passes
the upstream description through verbatim. -/
theorem emitted_description_normalized (u : Updater) (rpmValid : String → Bool)
    (flagValue : String) (info : UpdateInfo) (dpkgValid : String → Bool)
    (relMap : List (String × String)) (data : JsonData) :
    (∀ v ∈ (updateCore u rpmValid flagValue info).Vulnerabilities,
        isNormalizedWhitespace v.Vulnerability.Description)
    ∧ (∀ v ∈ (parseDebianJSON dpkgValid relMap data).1,
        ∃ t, t ∈ triplesOf data ∧ v.Vulnerability.Description = t.description) := by
  constructor
  · intro v hv
    rw [updateCore_vulnerabilities] at hv
    obtain ⟨alas, _, hveq⟩ := List.mem_map.mp hv
    rw [← hveq]
    exact isNormalized_trim_collapse alas.Description
  · intro v hv
    obtain ⟨p, hp, hpeq⟩ := List.mem_map.mp hv
    rcases foldl_processTriple_desc dpkgValid relMap (triplesOf data) ⟨[], []⟩ hp
      with h | ⟨t, ht, he⟩
    · simp at h
    · exact ⟨t, ht, by rw [← hpeq]; exact he⟩

theorem emitted_description_witness :
    isNormalizedWhitespace
      (alasToVuln amazonLinux1Updater acceptAllVersions sampleALAS).Vulnerability.Description :=
  (emitted_description_normalized amazonLinux1Updater acceptAllVersions "" sampleUpdateInfo
      acceptAllVersions sampleRelMap dataHighTwice).1
    (alasToVuln amazonLinux1Updater acceptAllVersions sampleALAS) (by decide)

/-- C9, counterexample to the claim as stated: the Debian updater emits the
upstream description verbatim, here with a double space that normalization
would collapse. -/
theorem emitted_description_counterexample :
    (parseDebianJSON acceptAllVersions sampleRelMap
        [("pkg", [("CVE-2020-2",
          { Description := "a  b", Releases := [("buster", highRel)] })])]).1.map
      VulnerabilityWithAffected.Description = ["a  b"]
    ∧ noDoubleSpaceB ("a  b").toList = false
    ∧ collapseSpace (trimSpace "a  b") = "a b"
    ∧ "a  b" ≠ "a b" := by
  decide

/-- C3 (amended): when the decoded document hashes to the stored watermark,
buildResponse returns an empty batch without error, and the watermark fields
are set to the freshly computed hash — which equals the stored one, so the
watermark is unchanged rather than absent. -/
theorem debian_hash_dedup (decodeJson : String → Option JsonData)
    (sha256hex : String → String) (dpkgValid : String → Bool)
    (relMap : List (String × String)) (body latestKnownHash : String)
    (data : JsonData) (hdec : decodeJson body = some data)
    (hhash : sha256hex body = latestKnownHash) :
    buildResponse decodeJson sha256hex dpkgValid relMap body latestKnownHash
      = ({ FlagName := debianUpdaterFlag, FlagValue := latestKnownHash,
           Notes := [], Vulnerabilities := [] }, none) := by
  simp only [buildResponse, hdec]
  rw [hhash, if_pos rfl]
  rfl

theorem debian_hash_dedup_witness :
    buildResponse (fun _ => some []) (fun _ => "cafe") acceptAllVersions [] "x" "cafe"
      = ({ FlagName := debianUpdaterFlag, FlagValue := "cafe",
           Notes := [], Vulnerabilities := [] }, none) :=
  debian_hash_dedup (fun _ => some []) (fun _ => "cafe") acceptAllVersions [] "x" "cafe"
    [] rfl rfl

/-- C3, counterexample to the claim as stated: on a hash match the response
carries the watermark key and the (non-empty) hash value — the deferred
function of buildResponse sets both on every non-error path — so the
watermark is not absent. -/
theorem debian_hash_dedup_counterexample :
    (buildResponse (fun _ => some []) (fun _ => "cafe") acceptAllVersions []
        "x" "cafe").1.Vulnerabilities = []
    ∧ (buildResponse (fun _ => some []) (fun _ => "cafe") acceptAllVersions []
        "x" "cafe").2 = none
    ∧ (buildResponse (fun _ => some []) (fun _ => "cafe") acceptAllVersions []
        "x" "cafe").1.FlagName = "debianUpdater"
    ∧ (buildResponse (fun _ => some []) (fun _ => "cafe") acceptAllVersions []
        "x" "cafe").1.FlagValue = "cafe"
    ∧ "cafe" ≠ "" := by
  decide

/-- A network oracle on which every fetch succeeds with a 2xx status and an
empty body. -/
def netAll2xx : Net := fun _ => some { status2xx := true, body := "" }

/-- The single updateinfo entry used by the sample repomd decoder. -/
def updateInfoRepo : Repo :=
  { RepoDataType := "updateinfo", Location := { Href := "repodata/updateinfo.xml.gz" } }

/-- A repomd decoder returning one updateinfo entry. -/
def repoMdWithUpdateInfo : String → Option RepoMd :=
  fun _ => some { RepoList := [updateInfoRepo] }

/-- C8 (amended): transport failures and non-2xx statuses at every fetch
stage of both updaters yield CouldNotDownload; the gzip decompression, the
update-info XML decode and the Debian JSON decode failures yield
CouldNotParse, but the repomd.xml decode failure yields CouldNotDownload in
the source; every such error is fatal and is returned alongside an empty
response, never a partial batch. -/
theorem fetch_error_classification
    (net : Net) (decodeRepoMd : String → Option RepoMd) (gunzip : String → Option String)
    (decodeUpdateInfo : String → Option UpdateInfo) (rpmValid : String → Bool)
    (kv : Except ClairError (Option String)) (u : Updater)
    (decodeJson : String → Option JsonData) (sha256hex : String → String)
    (dpkgValid : String → Bool) (relMap : List (String × String)) :
    (net u.MirrorListURI = none →
      getUpdateInfoURI net decodeRepoMd u = .error .CouldNotDownload)
    ∧ (∀ r, net u.MirrorListURI = some r → r.status2xx = false →
        getUpdateInfoURI net decodeRepoMd u = .error .CouldNotDownload)
    ∧ (∀ r, net u.MirrorListURI = some r → r.status2xx = true →
        net (firstLine r.body ++ "/repodata/repomd.xml") = none →
        getUpdateInfoURI net decodeRepoMd u = .error .CouldNotDownload)
    ∧ (∀ r r2, net u.MirrorListURI = some r → r.status2xx = true →
        net (firstLine r.body ++ "/repodata/repomd.xml") = some r2 → r2.status2xx = false →
        getUpdateInfoURI net decodeRepoMd u = .error .CouldNotDownload)
    ∧ (∀ r r2, net u.MirrorListURI = some r → r.status2xx = true →
        net (firstLine r.body ++ "/repodata/repomd.xml") = some r2 → r2.status2xx = true →
        decodeRepoMd r2.body = none →
        getUpdateInfoURI net decodeRepoMd u = .error .CouldNotDownload)
    ∧ (∀ uri, getUpdateInfoURI net decodeRepoMd u = .ok uri → net uri = none →
        getUpdateInfo net decodeRepoMd gunzip decodeUpdateInfo u = .error .CouldNotDownload)
    ∧ (∀ uri r3, getUpdateInfoURI net decodeRepoMd u = .ok uri → net uri = some r3 →
        r3.status2xx = false →
        getUpdateInfo net decodeRepoMd gunzip decodeUpdateInfo u = .error .CouldNotDownload)
    ∧ (∀ uri r3, getUpdateInfoURI net decodeRepoMd u = .ok uri → net uri = some r3 →
        r3.status2xx = true → gunzip r3.body = none →
        getUpdateInfo net decodeRepoMd gunzip decodeUpdateInfo u = .error .CouldNotParse)
    ∧ (∀ uri r3 xml, getUpdateInfoURI net decodeRepoMd u = .ok uri → net uri = some r3 →
        r3.status2xx = true → gunzip r3.body = some xml → decodeUpdateInfo xml = none →
        getUpdateInfo net decodeRepoMd gunzip decodeUpdateInfo u = .error .CouldNotParse)
    ∧ (∀ e, getUpdateInfo net decodeRepoMd gunzip decodeUpdateInfo u = .error e →
        ∀ found, kv = .ok found →
        amznUpdate net decodeRepoMd gunzip decodeUpdateInfo rpmValid kv u
          = (emptyUpdateResponse, some e))
    ∧ ((amznUpdate net decodeRepoMd gunzip decodeUpdateInfo rpmValid kv u).2 ≠ none →
        (amznUpdate net decodeRepoMd gunzip decodeUpdateInfo rpmValid kv u).1
          = emptyUpdateResponse)
    ∧ (net debianJSONURL = none → ∀ found, kv = .ok found →
        debianUpdate net decodeJson sha256hex dpkgValid relMap kv
          = (emptyUpdateResponse, some .CouldNotDownload))
    ∧ (∀ r, net debianJSONURL = some r → r.status2xx = false → ∀ found, kv = .ok found →
        debianUpdate net decodeJson sha256hex dpkgValid relMap kv
          = (emptyUpdateResponse, some .CouldNotDownload))
    ∧ (∀ r, net debianJSONURL = some r → r.status2xx = true → decodeJson r.body = none →
        ∀ found, kv = .ok found →
        debianUpdate net decodeJson sha256hex dpkgValid relMap kv
          = (emptyUpdateResponse, some .CouldNotParse))
    ∧ ((debianUpdate net decodeJson sha256hex dpkgValid relMap kv).2 ≠ none →
        (debianUpdate net decodeJson sha256hex dpkgValid relMap kv).1
          = emptyUpdateResponse) := by
  refine ⟨?_, ?_, ?_, ?_, ?_, ?_, ?_, ?_, ?_, ?_, ?_, ?_, ?_, ?_, ?_⟩
  · intro h
    simp [getUpdateInfoURI, h]
  · intro r h1 h2
    simp [getUpdateInfoURI, h1, h2]
  · intro r h1 h2 h3
    simp [getUpdateInfoURI, h1, h2, h3]
  · intro r r2 h1 h2 h3 h4
    simp [getUpdateInfoURI, h1, h2, h3, h4]
  · intro r r2 h1 h2 h3 h4 h5
    simp [getUpdateInfoURI, h1, h2, h3, h4, h5]
  · intro uri huri hnet
    simp [getUpdateInfo, huri, hnet]
  · intro uri r3 huri hnet hst
    simp [getUpdateInfo, huri, hnet, hst]
  · intro uri r3 huri hnet hst hgz
    simp [getUpdateInfo, huri, hnet, hst, hgz]
  · intro uri r3 xml huri hnet hst hgz hdec
    simp [getUpdateInfo, huri, hnet, hst, hgz, hdec]
  · intro e he found hkv
    simp [amznUpdate, hkv, he]
  · intro h
    cases hkv : kv with
    | error e => simp [amznUpdate, hkv]
    | ok found =>
      cases hgu : getUpdateInfo net decodeRepoMd gunzip decodeUpdateInfo u with
      | error e => simp [amznUpdate, hkv, hgu]
      | ok updateInfo =>
        rw [hkv] at h
        simp [amznUpdate, hgu] at h
  · intro hnet found hkv
    simp [debianUpdate, hkv, hnet]
  · intro r hnet hst found hkv
    simp [debianUpdate, hkv, hnet, hst]
  · intro r hnet hst hdec found hkv
    simp [debianUpdate, hkv, hnet, hst, buildResponse, hdec]
  · intro h
    cases hkv : kv with
    | error e => simp [debianUpdate, hkv]
    | ok found =>
      cases hnet : net debianJSONURL with
      | none => simp [debianUpdate, hkv, hnet]
      | some r =>
        by_cases hst : r.status2xx
        · cases hdec : decodeJson r.body with
          | none => simp [debianUpdate, hkv, hnet, hst, buildResponse, hdec]
          | some data =>
            rw [hkv] at h
            by_cases hh : found.getD "" = sha256hex r.body
            · simp [debianUpdate, hnet, hst, buildResponse, hdec, hh] at h
            · simp [debianUpdate, hnet, hst, buildResponse, hdec, hh] at h
        · simp [debianUpdate, hkv, hnet, hst]

theorem fetch_error_classification_witness :
    getUpdateInfo netAll2xx repoMdWithUpdateInfo (fun _ => none)
      (fun _ => some { ALASList := [] }) amazonLinux1Updater = .error .CouldNotParse :=
  (fetch_error_classification netAll2xx repoMdWithUpdateInfo (fun _ => none)
      (fun _ => some { ALASList := [] }) acceptAllVersions (.ok (some ""))
      amazonLinux1Updater (fun _ => some []) (fun _ => "") acceptAllVersions
      []).2.2.2.2.2.2.2.1
    "/repodata/updateinfo.xml.gz" { status2xx := true, body := "" }
    rfl rfl rfl rfl

/-- C8, counterexample to the claim as stated: a structural decode failure
of repomd.xml yields CouldNotDownload, not CouldNotParse. -/
theorem fetch_error_counterexample :
    amznUpdate netAll2xx (fun _ => none) (fun s => some s)
        (fun _ => some { ALASList := [] }) acceptAllVersions
        (.ok (some "")) amazonLinux1Updater
      = (emptyUpdateResponse, some ClairError.CouldNotDownload)
    ∧ ClairError.CouldNotDownload ≠ ClairError.CouldNotParse := by
  decide
